import Mathlib

/-!
Verification development for the cache / pagination / recency-ranking core
of the yunxiao-project extension.

The JavaScript source is shallowly embedded: every class becomes a state
type, every method a pure Lean function on that state (stateful methods
return the updated state explicitly), JS numbers holding millisecond
timestamps become `Int`, JS floating-point scores become `ℝ` (transcendental
functions are exact reals here), and JS `Map` objects become association
lists with the same first-match lookup / in-place overwrite / single-entry
delete semantics.
-/

namespace Yunxiao

/-! ### TTL cache — `CacheManager` (src/managers/cacheManager.js)

The manager wraps a JS `Map` from string keys to items
`{data, timestamp, expiry}`.  We model the map as an association list in
insertion order; `Map.get` is first-match lookup, `Map.delete` removes the
(unique) matching entry, `Map.keys()` lists keys in order. -/

structure CacheItem (V : Type) where
  data : V
  timestamp : Int
  expiry : Int
  deriving Repr, DecidableEq

abbrev Cache (V : Type) : Type := List (String × CacheItem V)

/-- JS `this.cache.get(key)` : first entry whose key matches. -/
def Cache.lookup {V : Type} (c : Cache V) (key : String) : Option (CacheItem V) :=
  match c.find? (fun p => decide (p.1 = key)) with
  | some p => some p.2
  | none => none

/-- JS `this.cache.delete(key)` (method `delete` of `CacheManager`). -/
def Cache.deleteKey {V : Type} (c : Cache V) (key : String) : Cache V :=
  c.eraseP (fun p => decide (p.1 = key))

/-- JS `set(key, value, ttl)`: overwrite in place if present, else append. -/
def Cache.setKey {V : Type} (c : Cache V) (key : String) (it : CacheItem V) : Cache V :=
  if (Cache.lookup c key).isSome then
    c.map (fun p => if p.1 = key then (key, it) else p)
  else c ++ [(key, it)]

/-- Method `isExpired(key)` of `CacheManager` (lines 44–53): a missing entry
counts as expired, otherwise the test is `(now - item.timestamp) > item.expiry`.
The wall clock `Date.now()` is passed explicitly as `now`. -/
def Cache.isExpired {V : Type} (now : Int) (c : Cache V) (key : String) : Bool :=
  match Cache.lookup c key with
  | none => true
  | some it => decide (now - it.timestamp > it.expiry)

/-- Method `get(key)` of `CacheManager` (lines 10–23): miss on absent entry;
on an expired entry delete it and miss; otherwise return the stored data.
Returns the read result together with the post-state of the map. -/
def Cache.get {V : Type} (now : Int) (c : Cache V) (key : String) :
    Option V × Cache V :=
  match Cache.lookup c key with
  | none => (none, c)
  | some it =>
    if Cache.isExpired now c key then (none, Cache.deleteKey c key)
    else (some it.data, c)

/-- Method `getAllKeys()` of `CacheManager` (the revision embedded in
src/managers/authManager.js lines 1084–1090): `Array.from(this.cache.keys())`. -/
def Cache.getAllKeys {V : Type} (c : Cache V) : List String :=
  c.map Prod.fst

/-- Concrete one-entry cache used to exercise the cache theorems. -/
def cacheExample : Cache Nat := [("k", ⟨7, 0, 1000⟩)]

/-- C3: `get(key)` returns the stored value iff an entry for the key exists
and `now - createdAt ≤ ttl`; if the entry exists but is expired
(`now - createdAt > ttl`) then `get` deletes the entry and returns absent;
an absent key is a plain miss (absent result, state unchanged). -/
theorem cache_get_ttl {V : Type} (now : Int) (c : Cache V) (key : String) :
    (∀ v : V, (Cache.get now c key).1 = some v ↔
      ∃ it, Cache.lookup c key = some it ∧ now - it.timestamp ≤ it.expiry ∧ it.data = v)
    ∧ (∀ it, Cache.lookup c key = some it → now - it.timestamp > it.expiry →
        Cache.get now c key = (none, Cache.deleteKey c key))
    ∧ (Cache.lookup c key = none → Cache.get now c key = (none, c)) := by
  refine ⟨?_, ?_, ?_⟩
  · intro v
    cases hl : Cache.lookup c key with
    | none => simp [Cache.get, hl]
    | some it =>
      by_cases hexp : now - it.timestamp > it.expiry
      · have hget : Cache.get now c key = (none, Cache.deleteKey c key) := by
          simp [Cache.get, Cache.isExpired, hl, hexp]
        rw [hget]
        constructor
        · intro h; simp at h
        · rintro ⟨it2, hit2, hle, _⟩
          injection hit2 with h2
          subst h2
          omega
      · have hget : Cache.get now c key = (some it.data, c) := by
          simp [Cache.get, Cache.isExpired, hl, hexp]
        rw [hget]
        constructor
        · intro h
          exact ⟨it, rfl, by omega, by simpa using h⟩
        · rintro ⟨it2, hit2, _, hdata⟩
          injection hit2 with h2
          subst h2
          simp [hdata]
  · intro it hit hexp
    simp [Cache.get, Cache.isExpired, hit, hexp]
  · intro h
    simp [Cache.get, h]

/-- Witness for C3 at a concrete cache: a fresh read hits, an expired read
deletes the entry and misses. -/
theorem cache_get_ttl_witness :
    (Cache.get 500 cacheExample "k").1 = some 7
    ∧ Cache.get 1500 cacheExample "k" = (none, Cache.deleteKey cacheExample "k") := by
  constructor
  · exact ((cache_get_ttl 500 cacheExample "k").1 7).mpr
      ⟨⟨7, 0, 1000⟩, by decide, by decide, rfl⟩
  · exact (cache_get_ttl 1500 cacheExample "k").2.1 ⟨7, 0, 1000⟩ (by decide) (by decide)

/-- C9: `getAllKeys()` returns exactly the currently stored keys: a key is in
the returned list iff a lookup on the cache finds an entry for it. -/
theorem cache_getAllKeys_complete {V : Type} (c : Cache V) (key : String) :
    key ∈ Cache.getAllKeys c ↔ ∃ it, Cache.lookup c key = some it := by
  unfold Cache.getAllKeys Cache.lookup
  rw [List.mem_map]
  constructor
  · rintro ⟨p, hp, hkey⟩
    have hsome : (c.find? (fun p => decide (p.1 = key))).isSome := by
      rw [List.find?_isSome]
      exact ⟨p, hp, by simp [hkey]⟩
    cases hfind : c.find? (fun p => decide (p.1 = key)) with
    | none => rw [hfind] at hsome; simp at hsome
    | some q => exact ⟨q.2, rfl⟩
  · rintro ⟨it, hit⟩
    cases hfind : c.find? (fun p => decide (p.1 = key)) with
    | none => rw [hfind] at hit; simp at hit
    | some q =>
      have hq := List.find?_some hfind
      have hqmem := List.mem_of_find?_eq_some hfind
      exact ⟨q, hqmem, by simpa using hq⟩

/-- Witness for C9: the key of the concrete cache is listed. -/
theorem cache_getAllKeys_witness : "k" ∈ Cache.getAllKeys cacheExample :=
  (cache_getAllKeys_complete cacheExample "k").mpr ⟨⟨7, 0, 1000⟩, by decide⟩

/-! ### Category paginator — `WorkItemManager` (src/managers/workItemManager.js)

`lazyLoadState` maps a bucket (projectId × work-item type) to a per-type
pagination state.  We embed the per-bucket state machine: `I` is the opaque
work-item entity type, `F` the opaque filter type.  The Remote Fetcher
`apiClient.searchWorkItems(projectId, {...filter, workitemTypes:[type]},
{page, pageSize:50})` is abstracted as an oracle from the stored filter and
the requested page number to either a fetch result or an error message. -/

/-- Shape of a Remote Fetcher response: `{items, total, hasMore}`. -/
structure FetchResult (I : Type) where
  items : List I
  total : Int
  hasMore : Bool
  deriving Repr, DecidableEq

/-- Per-bucket pagination state, as built by `initializeLazyLoad`
(lines 93–99): `{currentPage, hasMore, total, items, filter}`. -/
structure TypeState (I F : Type) where
  currentPage : Nat
  hasMore : Bool
  total : Int
  items : List I
  filter : F
  deriving Repr, DecidableEq

/-- The Remote Fetcher oracle: stored filter and page number to result. -/
def Fetcher (I F : Type) : Type := F → Nat → Except String (FetchResult I)

/-- Errors thrown by `loadNextPageForType`: the literal
`throw new Error('请先初始化懒加载')` guard, and the wrapped fetch failure
`throw new Error(...)` in the catch block. -/
inductive LoadErr where
  | notInitialized : LoadErr
  | fetchFailed (msg : String) : LoadErr
  deriving Repr, DecidableEq

/-- Shape of the object returned by `loadNextPageForType`; the JS object has
`loaded`/`total` fields only on the success path and a `message` field only
on the terminal path, so those are `Option`s. -/
structure LoadResult (I : Type) where
  items : List I
  hasMore : Bool
  loaded : Option Nat
  total : Option Int
  message : Option String
  deriving Repr, DecidableEq

/-- Body of the per-type loop of `initializeLazyLoad` (lines 83–119), on the
cache-miss/forceRefresh path: fetch page 1 with the given filter; on success
install `{currentPage:1, hasMore, total, items, filter}`; on failure the
catch block swallows the error (console.warn) and installs the empty
terminal state `{currentPage:1, hasMore:false, total:0, items:[], filter}`. -/
def initializeType {I F : Type} (fetch : Fetcher I F) (filter : F) : TypeState I F :=
  match fetch filter 1 with
  | Except.ok r => ⟨1, r.hasMore, r.total, r.items, filter⟩
  | Except.error _ => ⟨1, false, 0, [], filter⟩

/-- Method `loadNextPageForType` (lines 129–165).  The bucket state is
`none` when the bucket was never initialized (the
`!projectState || !projectState[workitemType]` guard).  The call returns the
JS return/throw outcome together with the post-state of the bucket. -/
def loadNextPageForType {I F : Type} (fetch : Fetcher I F)
    (st : Option (TypeState I F)) :
    Except LoadErr (LoadResult I) × Option (TypeState I F) :=
  match st with
  | none => (Except.error LoadErr.notInitialized, none)
  | some ts =>
    if ts.hasMore = false then
      (Except.ok ⟨[], false, none, none, some "没有更多了"⟩, some ts)
    else
      let nextPage := ts.currentPage + 1
      match fetch ts.filter nextPage with
      | Except.error e =>
          (Except.error (LoadErr.fetchFailed ("加载下一页失败: " ++ e)), some ts)
      | Except.ok r =>
          let ts2 : TypeState I F :=
            ⟨nextPage, r.hasMore, ts.total, ts.items ++ r.items, ts.filter⟩
          (Except.ok ⟨r.items, r.hasMore, some ts2.items.length, some ts.total, none⟩,
           some ts2)

/-- One user-level operation on a bucket: either an `initializeLazyLoad`
covering it (non-cached path) or a `loadNextPageForType` call. -/
inductive POp (I F : Type) where
  | init (fetch : Fetcher I F) (filter : F) : POp I F
  | load (fetch : Fetcher I F) : POp I F

/-- Effect of one operation on the bucket state. -/
def pStep {I F : Type} (st : Option (TypeState I F)) : POp I F → Option (TypeState I F)
  | POp.init fetch filter => some (initializeType fetch filter)
  | POp.load fetch => (loadNextPageForType fetch st).2

/-- Bucket state after a sequence of operations, starting uninitialized. -/
def pRun {I F : Type} (st : Option (TypeState I F)) (ops : List (POp I F)) :
    Option (TypeState I F) :=
  ops.foldl pStep st

/-- Whether an operation is an `initializeLazyLoad`. -/
def POp.isInit {I F : Type} : POp I F → Bool
  | POp.init _ _ => true
  | POp.load _ => false

theorem pStep_load_isSome {I F : Type} (fetch : Fetcher I F) (ts : TypeState I F) :
    ((loadNextPageForType fetch (some ts)).2).isSome := by
  unfold loadNextPageForType
  by_cases h : ts.hasMore = false
  · simp [h]
  · simp only [h, if_false]
    cases hf : fetch ts.filter (ts.currentPage + 1) <;> simp

theorem pRun_isSome_of_init {I F : Type} (ops : List (POp I F))
    (st : Option (TypeState I F)) :
    (st.isSome ∨ ∃ op ∈ ops, op.isInit) → (pRun st ops).isSome := by
  induction ops generalizing st with
  | nil =>
    rintro (h | ⟨op, hmem, _⟩)
    · exact h
    · exact absurd hmem (List.not_mem_nil op)
  | cons op rest ih =>
    rintro (h | ⟨op2, hmem, hinit⟩)
    · refine ih (pStep st op) (Or.inl ?_)
      cases op with
      | init fetch filter => simp [pStep]
      | load fetch =>
        cases st with
        | none => simp at h
        | some ts => exact pStep_load_isSome fetch ts
    · rcases List.mem_cons.mp hmem with rfl | hmem2
      · refine ih (pStep st op2) (Or.inl ?_)
        cases op2 with
        | init fetch filter => simp [pStep]
        | load fetch => simp [POp.isInit] at hinit
      · exact ih (pStep st op) (Or.inr ⟨op2, hmem2, hinit⟩)

theorem pRun_none_of_no_init {I F : Type} (ops : List (POp I F))
    (h : ∀ op ∈ ops, op.isInit = false) :
    pRun (none : Option (TypeState I F)) ops = none := by
  induction ops with
  | nil => rfl
  | cons op rest ih =>
    have hop := h op (List.mem_cons_self op rest)
    cases op with
    | init fetch filter => simp [POp.isInit] at hop
    | load fetch =>
      show pRun (pStep none (POp.load fetch)) rest = none
      have : pStep (none : Option (TypeState I F)) (POp.load fetch) = none := rfl
      rw [this]
      exact ih (fun op2 hmem => h op2 (List.mem_cons_of_mem _ hmem))

/-- C5: starting from an uninitialized bucket, `loadNextPageForType` throws
the not-initialized error exactly when no `initializeLazyLoad` covering the
bucket has run (initialization installs a state even on fetch failure, and
loading never uninstalls it); and on a bucket whose `hasMore` is `false` the
call is a normal terminal result `{items: [], hasMore: false}` computed
without consulting the Remote Fetcher (the outcome is the same for every
fetcher) and leaving the state unchanged. -/
theorem loadNextPage_notInitialized_iff {I F : Type} (fetch : Fetcher I F)
    (ops : List (POp I F)) (ts : TypeState I F) :
    ((∀ op ∈ ops, op.isInit = false) →
      (loadNextPageForType fetch (pRun (none : Option (TypeState I F)) ops)).1
        = Except.error LoadErr.notInitialized)
    ∧ ((∃ op ∈ ops, op.isInit) →
      (loadNextPageForType fetch (pRun (none : Option (TypeState I F)) ops)).1
        ≠ Except.error LoadErr.notInitialized)
    ∧ (ts.hasMore = false →
      ∀ fetch2 : Fetcher I F,
        loadNextPageForType fetch (some ts) = loadNextPageForType fetch2 (some ts)
        ∧ loadNextPageForType fetch (some ts)
          = (Except.ok ⟨[], false, none, none, some "没有更多了"⟩, some ts)) := by
  refine ⟨?_, ?_, ?_⟩
  · intro h
    rw [pRun_none_of_no_init ops h]
    rfl
  · intro h
    have hsome := pRun_isSome_of_init ops none (Or.inr h)
    cases hst : pRun (none : Option (TypeState I F)) ops with
    | none => rw [hst] at hsome; simp at hsome
    | some ts2 =>
      unfold loadNextPageForType
      by_cases hm : ts2.hasMore = false
      · simp [hm]
      · simp only [hm, if_false]
        cases hf : fetch ts2.filter (ts2.currentPage + 1) <;> simp
  · intro hm fetch2
    unfold loadNextPageForType
    simp [hm]

/-- Concrete fetcher that always fails, and one that always succeeds with a
single item; used by the paginator witnesses and counterexample. -/
def failFetch : Fetcher Nat Unit := fun _ _ => Except.error "boom"

def okFetch : Fetcher Nat Unit := fun _ p => Except.ok ⟨[p], 9, true⟩

/-- Witness for C5: with no operation, load throws not-initialized; after one
(failing) initialize it does not; a terminal bucket returns the terminal
result for both concrete fetchers. -/
theorem loadNextPage_notInitialized_iff_witness :
    (loadNextPageForType okFetch (pRun (none : Option (TypeState Nat Unit)) [])).1
      = Except.error LoadErr.notInitialized
    ∧ (loadNextPageForType okFetch
        (pRun (none : Option (TypeState Nat Unit)) [POp.init failFetch ()])).1
      ≠ Except.error LoadErr.notInitialized
    ∧ loadNextPageForType okFetch (some (⟨3, false, 9, [1, 2], ()⟩ : TypeState Nat Unit))
      = loadNextPageForType failFetch (some (⟨3, false, 9, [1, 2], ()⟩ : TypeState Nat Unit)) := by
  refine ⟨?_, ?_, ?_⟩
  · exact (loadNextPage_notInitialized_iff okFetch [] ⟨3, false, 9, [1, 2], ()⟩).1
      (by intro op hmem; exact absurd hmem (List.not_mem_nil op))
  · exact (loadNextPage_notInitialized_iff okFetch [POp.init failFetch ()]
      ⟨3, false, 9, [1, 2], ()⟩).2.1
      ⟨POp.init failFetch (), List.mem_cons_self _ _, rfl⟩
  · exact ((loadNextPage_notInitialized_iff okFetch [] ⟨3, false, 9, [1, 2], ()⟩).2.2
      rfl failFetch).1

/-- C6 counterexample: with the always-failing fetcher, `initializeLazyLoad`
does NOT leave the bucket uninitialized and does NOT propagate the error
(`initializeType` is a total function — the JS catch block swallows the
fetch error): it installs the empty terminal state
`{currentPage:1, hasMore:false, total:0, items:[], filter}`. -/
theorem initialize_failure_installs_state :
    pStep (none : Option (TypeState Nat Unit)) (POp.init failFetch ())
      = some ⟨1, false, 0, [], ()⟩ := by
  rfl

/-- C6 amended: on Remote Fetcher failure during `initializeLazyLoad`, the
error is caught (never propagated — the embedding of the method is a total
function into states) and the bucket is installed with the empty terminal
state `{currentPage:1, hasMore:false, total:0, items:[], filter}`; on fetch
success the fetched first page is installed. -/
theorem initialize_failure_empty_terminal {I F : Type} (fetch : Fetcher I F)
    (filter : F) (e : String) (r : FetchResult I) :
    (fetch filter 1 = Except.error e →
      initializeType fetch filter = ⟨1, false, 0, [], filter⟩)
    ∧ (fetch filter 1 = Except.ok r →
      initializeType fetch filter = ⟨1, r.hasMore, r.total, r.items, filter⟩) := by
  constructor
  · intro h; unfold initializeType; rw [h]
  · intro h; unfold initializeType; rw [h]

/-- Witness for amended C6 at the two concrete fetchers. -/
theorem initialize_failure_empty_terminal_witness :
    initializeType failFetch () = ⟨1, false, 0, [], ()⟩
    ∧ initializeType okFetch () = ⟨1, true, 9, [1], ()⟩ := by
  constructor
  · exact (initialize_failure_empty_terminal failFetch () "boom" ⟨[1], 9, true⟩).1 rfl
  · exact (initialize_failure_empty_terminal okFetch () "boom" ⟨[1], 9, true⟩).2 rfl

/-- C7: when the fetch of page `currentPage+1` fails on an initialized bucket
with `hasMore = true`, the call throws the wrapped fetch error and the bucket
state is returned exactly as it was — `currentPage`, `items`, `hasMore`,
`total` and `filter` are all untouched. -/
theorem loadNextPage_failure_preserves_state {I F : Type} (fetch : Fetcher I F)
    (ts : TypeState I F) (e : String) (hm : ts.hasMore = true)
    (hf : fetch ts.filter (ts.currentPage + 1) = Except.error e) :
    loadNextPageForType fetch (some ts)
      = (Except.error (LoadErr.fetchFailed ("加载下一页失败: " ++ e)), some ts) := by
  unfold loadNextPageForType
  simp [hm, hf]

/-- Witness for C7 at a concrete bucket and the always-failing fetcher. -/
theorem loadNextPage_failure_preserves_state_witness :
    loadNextPageForType failFetch (some (⟨2, true, 9, [5], ()⟩ : TypeState Nat Unit))
      = (Except.error (LoadErr.fetchFailed ("加载下一页失败: " ++ "boom")),
         some ⟨2, true, 9, [5], ()⟩) :=
  loadNextPage_failure_preserves_state failFetch ⟨2, true, 9, [5], ()⟩ "boom" rfl rfl

/-- Items held by a bucket state (`[]` for an uninitialized bucket). -/
def stateItems {I F : Type} : Option (TypeState I F) → List I
  | some ts => ts.items
  | none => []

/-- The `currentPage` of a bucket state (`0` for an uninitialized bucket). -/
def pageNum {I F : Type} : Option (TypeState I F) → Nat
  | some ts => ts.currentPage
  | none => 0

/-- Sequential non-concurrent `loadNextPageForType` calls: the bucket state
after `n` calls, together with the list of page numbers whose items were
appended (a call appended a page exactly when it returned the success-shaped
object, the one carrying a `loaded` field; the page appended is then the new
`currentPage`). -/
def loadTrace {I F : Type} (fetch : Fetcher I F) (st : Option (TypeState I F)) :
    Nat → Option (TypeState I F) × List Nat
  | 0 => (st, [])
  | Nat.succ n =>
    match loadNextPageForType fetch (loadTrace fetch st n).1 with
    | (Except.ok r, st2) =>
      if r.loaded.isSome then (st2, (loadTrace fetch st n).2 ++ [pageNum st2])
      else (st2, (loadTrace fetch st n).2)
    | (Except.error _, st2) => (st2, (loadTrace fetch st n).2)

theorem loadTrace_inv {I F : Type} (fetch : Fetcher I F)
    (st : Option (TypeState I F)) (n : Nat) :
    (∀ q ∈ (loadTrace fetch st n).2, q ≤ pageNum (loadTrace fetch st n).1)
    ∧ ((loadTrace fetch st n).2).Pairwise (fun a b => a < b)
    ∧ (∃ tail, stateItems (loadTrace fetch st n).1 = stateItems st ++ tail)
    ∧ ((loadTrace fetch st n).1 = none → (loadTrace fetch st n).2 = []) := by
  induction n with
  | zero =>
    exact ⟨by simp [loadTrace], by simp [loadTrace], ⟨[], by simp [loadTrace]⟩,
      by simp [loadTrace]⟩
  | succ n ih =>
    obtain ⟨hbound, hpair, ⟨tail0, hitems⟩, hemp⟩ := ih
    cases hst : (loadTrace fetch st n).1 with
    | none =>
      have hnext : loadNextPageForType fetch (loadTrace fetch st n).1
          = (Except.error LoadErr.notInitialized, none) := by rw [hst]; rfl
      have heq : loadTrace fetch st (n + 1) = (none, (loadTrace fetch st n).2) := by
        rw [loadTrace, hnext]
      have hps := hemp hst
      rw [hst] at hitems
      refine ⟨?_, ?_, ⟨tail0, ?_⟩, ?_⟩
      · rw [heq, hps]; intro q hq; exact absurd hq (List.not_mem_nil q)
      · rw [heq, hps]; exact List.Pairwise.nil
      · rw [heq]; exact hitems
      · intro _; rw [heq, hps]
    | some ts =>
      rw [hst] at hbound hitems
      by_cases hm : ts.hasMore = false
      · have hnext : loadNextPageForType fetch (loadTrace fetch st n).1
            = (Except.ok ⟨[], false, none, none, some "没有更多了"⟩, some ts) := by
          rw [hst]; simp [loadNextPageForType, hm]
        have heq : loadTrace fetch st (n + 1) = (some ts, (loadTrace fetch st n).2) := by
          rw [loadTrace, hnext]; rfl
        refine ⟨?_, ?_, ⟨tail0, ?_⟩, ?_⟩
        · rw [heq]; exact hbound
        · rw [heq]; exact hpair
        · rw [heq]; exact hitems
        · intro h; rw [heq] at h; exact absurd h (by simp)
      · have hm2 : ts.hasMore = true := by
          cases h : ts.hasMore
          · exact absurd h hm
          · rfl
        cases hf : fetch ts.filter (ts.currentPage + 1) with
        | error e =>
          have hnext : loadNextPageForType fetch (loadTrace fetch st n).1
              = (Except.error (LoadErr.fetchFailed ("加载下一页失败: " ++ e)), some ts) := by
            rw [hst]
            exact loadNextPage_failure_preserves_state fetch ts e hm2 hf
          have heq : loadTrace fetch st (n + 1) = (some ts, (loadTrace fetch st n).2) := by
            rw [loadTrace, hnext]
          refine ⟨?_, ?_, ⟨tail0, ?_⟩, ?_⟩
          · rw [heq]; exact hbound
          · rw [heq]; exact hpair
          · rw [heq]; exact hitems
          · intro h; rw [heq] at h; exact absurd h (by simp)
        | ok r =>
          have hnext : loadNextPageForType fetch (loadTrace fetch st n).1
              = (Except.ok ⟨r.items, r.hasMore, some (ts.items ++ r.items).length,
                  some ts.total, none⟩,
                 some ⟨ts.currentPage + 1, r.hasMore, ts.total,
                   ts.items ++ r.items, ts.filter⟩) := by
            rw [hst]
            unfold loadNextPageForType
            simp [hm2, hf]
          have heq : loadTrace fetch st (n + 1)
              = (some ⟨ts.currentPage + 1, r.hasMore, ts.total,
                   ts.items ++ r.items, ts.filter⟩,
                 (loadTrace fetch st n).2 ++ [ts.currentPage + 1]) := by
            rw [loadTrace, hnext]; rfl
          refine ⟨?_, ?_, ⟨tail0 ++ r.items, ?_⟩, ?_⟩
          · rw [heq]
            intro q hq
            rcases List.mem_append.mp hq with hq1 | hq2
            · have := hbound q hq1
              simp only [pageNum] at this ⊢
              omega
            · have : q = ts.currentPage + 1 := by simpa using hq2
              simp [pageNum, this]
          · rw [heq]
            refine List.pairwise_append.mpr ⟨hpair, List.pairwise_singleton _ _, ?_⟩
            intro a ha b hb
            have hb2 : b = ts.currentPage + 1 := by simpa using hb
            have := hbound a ha
            simp only [pageNum] at this
            omega
          · rw [heq]
            simp only [stateItems] at hitems ⊢
            rw [hitems, List.append_assoc]
          · intro h; rw [heq] at h; exact absurd h (by simp)

/-- Concrete fetcher whose reported total differs from the stored one; used
by the C4 counterexample and the C4 witness. -/
def totFetch : Fetcher Nat Unit := fun _ p => Except.ok ⟨[p], 99, false⟩

/-- C4 counterexample: the claim says a successful `loadNextPageForType`
updates the bucket's `total`; in the code only `currentPage`, `items` and
`hasMore` are assigned (lines 151–154) and `total` keeps its initialize-time
value.  Concretely, with stored `total = 5` and a fetch reporting
`total = 99`, the post-state still holds `total = 5` (and the returned
running total is the stale `5`, not `99`). -/
theorem loadNextPage_total_not_updated :
    loadNextPageForType totFetch (some (⟨1, true, 5, [0], ()⟩ : TypeState Nat Unit))
      = (Except.ok ⟨[2], false, some 2, some 5, none⟩, some ⟨2, false, 5, [0, 2], ()⟩)
    ∧ (5 : Int) ≠ 99 := by
  constructor
  · rfl
  · decide

/-- C4 amended: for an initialized bucket with `hasMore = true`, a successful
`loadNextPageForType` fetches page `currentPage+1` with the bucket's stored
filter, appends the fetched items in order, sets `currentPage := currentPage+1`
and `hasMore` from the response, leaves `total` and `filter` unchanged, and
returns the new page with the running count and the (stored) total; across
sequential non-concurrent calls the items list never shrinks and the pages
whose items get appended are strictly increasing — no page is ever appended
twice. -/
theorem loadNextPage_success_spec {I F : Type} (fetch : Fetcher I F)
    (st : Option (TypeState I F)) (ts : TypeState I F) (r : FetchResult I) :
    (ts.hasMore = true → fetch ts.filter (ts.currentPage + 1) = Except.ok r →
      loadNextPageForType fetch (some ts)
        = (Except.ok ⟨r.items, r.hasMore, some (ts.items ++ r.items).length,
            some ts.total, none⟩,
           some ⟨ts.currentPage + 1, r.hasMore, ts.total,
             ts.items ++ r.items, ts.filter⟩))
    ∧ (∀ n, ∃ tail, stateItems (loadTrace fetch st n).1 = stateItems st ++ tail)
    ∧ (∀ n, ((loadTrace fetch st n).2).Pairwise (fun a b => a < b)) := by
  refine ⟨?_, ?_, ?_⟩
  · intro hm hf
    unfold loadNextPageForType
    simp [hm, hf]
  · intro n; exact (loadTrace_inv fetch st n).2.2.1
  · intro n; exact (loadTrace_inv fetch st n).2.1

/-- Witness for amended C4: one successful call on a concrete bucket, and a
two-call trace whose appended pages are `[2, 3]`. -/
theorem loadNextPage_success_spec_witness :
    loadNextPageForType okFetch (some (⟨1, true, 9, [1], ()⟩ : TypeState Nat Unit))
      = (Except.ok ⟨[2], true, some 2, some 9, none⟩, some ⟨2, true, 9, [1, 2], ()⟩)
    ∧ (loadTrace okFetch (some (⟨1, true, 9, [1], ()⟩ : TypeState Nat Unit)) 2).2
      = [2, 3] := by
  constructor
  · exact (loadNextPage_success_spec okFetch
      (some ⟨1, true, 9, [1], ()⟩) ⟨1, true, 9, [1], ()⟩ ⟨[2], 9, true⟩).1 rfl rfl
  · rfl

/-! ### Remote page post-processing — `searchWorkItems` of the API client
(src/unnamed/part_003 lines 517–539 and src/unnamed/part_002 lines 370–392)

After mapping the response body to work items, the client derives
`total` and `totalPages` from the response headers (defaults 0 and 1), sets
`actualTotal = total`, `actualHasMore = page.page < totalPages`, and then
applies the unreliable-total heuristic:
`if (actualTotal === 0 && workitems.length > 0) { actualTotal =
workitems.length; actualHasMore = workitems.length === page.pageSize; }`. -/

def adjustPagination {I : Type} (total totalPages page pageSize : Int)
    (workitems : List I) : Int × Bool :=
  let actualTotal := total
  let actualHasMore := decide (page < totalPages)
  if actualTotal = 0 ∧ workitems.length > 0 then
    ((workitems.length : Int), decide ((workitems.length : Int) = pageSize))
  else
    (actualTotal, actualHasMore)

/-- C8: if the header-derived total is 0 and the page is non-empty, the total
is replaced by the page length and `hasMore` is `true` exactly when the page
is exactly `pageSize` long; otherwise the header-derived total and
`hasMore = page < totalPages` are returned unchanged. -/
theorem searchWorkItems_total_heuristic {I : Type}
    (total totalPages page pageSize : Int) (workitems : List I) :
    (total = 0 → workitems ≠ [] →
      adjustPagination total totalPages page pageSize workitems
        = ((workitems.length : Int), decide ((workitems.length : Int) = pageSize))
      ∧ ((adjustPagination total totalPages page pageSize workitems).2 = true ↔
          (workitems.length : Int) = pageSize))
    ∧ (total ≠ 0 ∨ workitems = [] →
      adjustPagination total totalPages page pageSize workitems
        = (total, decide (page < totalPages))) := by
  constructor
  · intro h0 hne
    have hlen : workitems.length > 0 := List.length_pos.mpr hne
    have heq : adjustPagination total totalPages page pageSize workitems
        = ((workitems.length : Int), decide ((workitems.length : Int) = pageSize)) := by
      unfold adjustPagination
      rw [if_pos ⟨h0, hlen⟩]
    refine ⟨heq, ?_⟩
    rw [heq]
    simp
  · intro h
    unfold adjustPagination
    rcases h with h | h
    · rw [if_neg]; rintro ⟨h0, _⟩; exact h h0
    · rw [if_neg]; rintro ⟨_, hlen⟩; rw [h] at hlen; simp at hlen

/-- Witness for C8: a zero total with a full page of 2 items at pageSize 2
yields total 2 and hasMore true; a non-zero total is passed through. -/
theorem searchWorkItems_total_heuristic_witness :
    adjustPagination 0 1 1 2 [10, 20] = (2, true)
    ∧ adjustPagination 7 2 1 2 [10, 20] = (7, true) := by
  constructor
  · have h := (searchWorkItems_total_heuristic 0 1 1 2 [10, 20]).1 rfl (by decide)
    rw [h.1]; rfl
  · have h := (searchWorkItems_total_heuristic 7 2 1 2 [10, 20]).2 (Or.inl (by decide))
    rw [h]; rfl

/-! ### Recency/frequency ranker — `RecentManager` (src/managers/recentManager.js)

`recentItems` is an array of entries
`{itemId, itemType, lastUsedAt, useCount, score, data}`.  The score type is a
parameter `σ` with a linear order, and the score computation
`calculateScore` a parameter `calc : lastUsedAt → useCount → σ` (the real
instantiation, with `σ = ℝ` and the exp/log formula, is below); `Date.now()`
is the explicit `now`, and the host configuration lookup
`config.get(key, default)` is an explicit `config : String → Option Nat`.
JS `Array.prototype.sort` with the comparator `(a, b) => b.score - a.score`
is a stable descending sort by score, embedded as `List.mergeSort` with
`le a b = (b.score ≤ a.score)` (Lean's mergeSort is stable). -/

inductive ItemType where
  | project
  | workItem
  | searchKeyword
  | codeGroup
  | codeRepo
  | codeBranch
  deriving Repr, DecidableEq

structure RecentEntry (σ D : Type) where
  itemId : String
  itemType : ItemType
  lastUsedAt : Int
  useCount : Nat
  score : σ
  data : Option D
  deriving Repr, DecidableEq

/-- The identity of an entry, as used by every `findIndex` in the manager. -/
def keyOf {σ D : Type} (e : RecentEntry σ D) : String × ItemType :=
  (e.itemId, e.itemType)

/-- Registry whose entry identities are pairwise distinct (an invariant of
`addItem`, which updates an existing `(itemId, itemType)` instead of pushing
a duplicate). -/
def keysNodup {σ D : Type} (l : List (RecentEntry σ D)) : Prop :=
  (l.map keyOf).Nodup

/-- The `findIndex`-then-`splice(index, 1)` idiom of `limitItems`
(lines 222–227 etc.): remove the first entry with the given identity, if
any. -/
def removeFirstByKey {σ D : Type} (l : List (RecentEntry σ D))
    (id : String) (t : ItemType) : List (RecentEntry σ D) :=
  match l with
  | [] => []
  | e :: rest =>
    if e.itemId = id ∧ e.itemType = t then rest
    else e :: removeFirstByKey rest id t

/-- One capacity block of `limitItems` (e.g. lines 217–229): if the entries
of one type exceed the capacity, sort that type's entries by stored score
descending, and splice every overflow entry (the slice beyond `max`) out of
the registry. -/
def limitType {σ D : Type} [LinearOrder σ] (max : Nat)
    (typed : List (RecentEntry σ D)) (items : List (RecentEntry σ D)) :
    List (RecentEntry σ D) :=
  if typed.length > max then
    let sorted := typed.mergeSort (fun a b => decide (b.score ≤ a.score))
    (sorted.drop max).foldl (fun acc e => removeFirstByKey acc e.itemId e.itemType) items
  else items

/-- Method `limitItems` (lines 200–295): per-type capacities (only the
Project and WorkItem ones read the host configuration, defaults 20 and 50;
the other four are literals), the six per-type filters computed up front
from the current registry, then the six capacity blocks in order. -/
def limitItems {σ D : Type} [LinearOrder σ] (config : String → Option Nat)
    (items : List (RecentEntry σ D)) : List (RecentEntry σ D) :=
  let maxProjects := (config "maxRecentProjects").getD 20
  let maxWorkItems := (config "maxRecentWorkItems").getD 50
  let maxSearchKeywords := 10
  let maxCodeGroups := 10
  let maxCodeRepos := 20
  let maxCodeBranches := 30
  let projects := items.filter (fun e => decide (e.itemType = ItemType.project))
  let workitems := items.filter (fun e => decide (e.itemType = ItemType.workItem))
  let searchKeywords := items.filter (fun e => decide (e.itemType = ItemType.searchKeyword))
  let codeGroups := items.filter (fun e => decide (e.itemType = ItemType.codeGroup))
  let codeRepos := items.filter (fun e => decide (e.itemType = ItemType.codeRepo))
  let codeBranches := items.filter (fun e => decide (e.itemType = ItemType.codeBranch))
  let items1 := limitType maxProjects projects items
  let items2 := limitType maxWorkItems workitems items1
  let items3 := limitType maxSearchKeywords searchKeywords items2
  let items4 := limitType maxCodeGroups codeGroups items3
  let items5 := limitType maxCodeRepos codeRepos items4
  limitType maxCodeBranches codeBranches items5

/-- Method `recalculateScores` (lines 187–195): recompute every entry's
score, then sort the registry descending by score. -/
def recalculateScores {σ D : Type} [LinearOrder σ] (sc : Int → Nat → σ)
    (items : List (RecentEntry σ D)) : List (RecentEntry σ D) :=
  (items.map (fun e => { e with score := sc e.lastUsedAt e.useCount })).mergeSort
    (fun a b => decide (b.score ≤ a.score))

/-- The `findIndex`-based upsert at the top of `addItem` (lines 22–45):
update the first entry with the given identity in place, or push a new entry
at the end. -/
def upsertFirst {σ D : Type} (id : String) (t : ItemType)
    (upd : RecentEntry σ D → RecentEntry σ D) (newEntry : RecentEntry σ D) :
    List (RecentEntry σ D) → List (RecentEntry σ D)
  | [] => [newEntry]
  | e :: rest =>
    if e.itemId = id ∧ e.itemType = t then upd e :: rest
    else e :: upsertFirst id t upd newEntry rest

/-- JS `data || item.data` on the opaque payload: keep the old payload when
the new one is absent. -/
def jsOr {D : Type} (d old : Option D) : Option D :=
  match d with
  | some x => some x
  | none => old

/-- Method `addItem` (lines 21–55): upsert (existing entry gets
`lastUsedAt = now`, `useCount+1`, `data = data || item.data` and a freshly
computed score; a new entry starts at `useCount = 1`), then `limitItems`,
then `recalculateScores`; the final `saveRecentItems` is persistence only. -/
def addItem {σ D : Type} [LinearOrder σ] (sc : Int → Nat → σ)
    (config : String → Option Nat) (now : Int) (id : String) (t : ItemType)
    (d : Option D) (items : List (RecentEntry σ D)) : List (RecentEntry σ D) :=
  let afterUpsert := upsertFirst id t
    (fun old =>
      { old with
        lastUsedAt := now,
        useCount := old.useCount + 1,
        data := jsOr d old.data,
        score := sc now (old.useCount + 1) })
    ⟨id, t, now, 1, sc now 1, d⟩ items
  recalculateScores sc (limitItems config afterUpsert)

/-- JS truthiness of an optional numeric `limit` argument: `undefined` and
`0` are falsy. -/
def jsTruthy : Option Nat → Bool
  | none => false
  | some n => decide (n ≠ 0)

/-- Getter `getRecentProjects` (lines 60–63):
`limit ? projects.slice(0, limit) : projects`. -/
def getRecentProjects {σ D : Type} (items : List (RecentEntry σ D))
    (limit : Option Nat) : List (RecentEntry σ D) :=
  let projects := items.filter (fun e => decide (e.itemType = ItemType.project))
  if jsTruthy limit then projects.take (limit.getD 0) else projects

/-- Getter `getRecentWorkItems` (lines 68–71). -/
def getRecentWorkItems {σ D : Type} (items : List (RecentEntry σ D))
    (limit : Option Nat) : List (RecentEntry σ D) :=
  let workitems := items.filter (fun e => decide (e.itemType = ItemType.workItem))
  if jsTruthy limit then workitems.take (limit.getD 0) else workitems

/-- Getter `getRecentSearchKeywords` (lines 76–79). -/
def getRecentSearchKeywords {σ D : Type} (items : List (RecentEntry σ D))
    (limit : Option Nat) : List (RecentEntry σ D) :=
  let keywords := items.filter (fun e => decide (e.itemType = ItemType.searchKeyword))
  if jsTruthy limit then keywords.take (limit.getD 0) else keywords

/-- Getter `getRecentCodeGroups` (lines 84–87). -/
def getRecentCodeGroups {σ D : Type} (items : List (RecentEntry σ D))
    (limit : Option Nat) : List (RecentEntry σ D) :=
  let codeGroups := items.filter (fun e => decide (e.itemType = ItemType.codeGroup))
  if jsTruthy limit then codeGroups.take (limit.getD 0) else codeGroups

/-- Getter `getRecentCodeRepos` (lines 92–95). -/
def getRecentCodeRepos {σ D : Type} (items : List (RecentEntry σ D))
    (limit : Option Nat) : List (RecentEntry σ D) :=
  let codeRepos := items.filter (fun e => decide (e.itemType = ItemType.codeRepo))
  if jsTruthy limit then codeRepos.take (limit.getD 0) else codeRepos

/-- Getter `getRecentCodeBranches` (lines 100–103). -/
def getRecentCodeBranches {σ D : Type} (items : List (RecentEntry σ D))
    (limit : Option Nat) : List (RecentEntry σ D) :=
  let codeBranches := items.filter (fun e => decide (e.itemType = ItemType.codeBranch))
  if jsTruthy limit then codeBranches.take (limit.getD 0) else codeBranches

/-- Getter `getAllRecentItems` (lines 108–110). -/
def getAllRecentItems {σ D : Type} (items : List (RecentEntry σ D))
    (limit : Option Nat) : List (RecentEntry σ D) :=
  if jsTruthy limit then items.take (limit.getD 0) else items

/-- C10: every per-type getter (and `getAllRecentItems`) returns the complete
list of entries of its type when `limit` is omitted (`none`) or `0` (both JS
falsy), and truncates to the first `limit` entries only for a positive
`limit`; the getters are pure functions of the registry (they are Lean
functions — no state is returned, so the registry is never mutated). -/
theorem getters_limit_semantics {σ D : Type} (items : List (RecentEntry σ D)) (k : Nat) :
    (getRecentProjects items none
        = items.filter (fun e => decide (e.itemType = ItemType.project))
      ∧ getRecentProjects items (some 0)
        = items.filter (fun e => decide (e.itemType = ItemType.project))
      ∧ getRecentProjects items (some (k + 1))
        = (items.filter (fun e => decide (e.itemType = ItemType.project))).take (k + 1))
    ∧ (getRecentWorkItems items none
        = items.filter (fun e => decide (e.itemType = ItemType.workItem))
      ∧ getRecentWorkItems items (some 0)
        = items.filter (fun e => decide (e.itemType = ItemType.workItem))
      ∧ getRecentWorkItems items (some (k + 1))
        = (items.filter (fun e => decide (e.itemType = ItemType.workItem))).take (k + 1))
    ∧ (getRecentSearchKeywords items none
        = items.filter (fun e => decide (e.itemType = ItemType.searchKeyword))
      ∧ getRecentSearchKeywords items (some 0)
        = items.filter (fun e => decide (e.itemType = ItemType.searchKeyword))
      ∧ getRecentSearchKeywords items (some (k + 1))
        = (items.filter (fun e => decide (e.itemType = ItemType.searchKeyword))).take (k + 1))
    ∧ (getRecentCodeGroups items none
        = items.filter (fun e => decide (e.itemType = ItemType.codeGroup))
      ∧ getRecentCodeGroups items (some 0)
        = items.filter (fun e => decide (e.itemType = ItemType.codeGroup))
      ∧ getRecentCodeGroups items (some (k + 1))
        = (items.filter (fun e => decide (e.itemType = ItemType.codeGroup))).take (k + 1))
    ∧ (getRecentCodeRepos items none
        = items.filter (fun e => decide (e.itemType = ItemType.codeRepo))
      ∧ getRecentCodeRepos items (some 0)
        = items.filter (fun e => decide (e.itemType = ItemType.codeRepo))
      ∧ getRecentCodeRepos items (some (k + 1))
        = (items.filter (fun e => decide (e.itemType = ItemType.codeRepo))).take (k + 1))
    ∧ (getRecentCodeBranches items none
        = items.filter (fun e => decide (e.itemType = ItemType.codeBranch))
      ∧ getRecentCodeBranches items (some 0)
        = items.filter (fun e => decide (e.itemType = ItemType.codeBranch))
      ∧ getRecentCodeBranches items (some (k + 1))
        = (items.filter (fun e => decide (e.itemType = ItemType.codeBranch))).take (k + 1))
    ∧ (getAllRecentItems items none = items
      ∧ getAllRecentItems items (some 0) = items
      ∧ getAllRecentItems items (some (k + 1)) = items.take (k + 1)) :=
  ⟨⟨rfl, rfl, rfl⟩, ⟨rfl, rfl, rfl⟩, ⟨rfl, rfl, rfl⟩, ⟨rfl, rfl, rfl⟩,
   ⟨rfl, rfl, rfl⟩, ⟨rfl, rfl, rfl⟩, ⟨rfl, rfl, rfl⟩⟩

/-! ### The real score model (methods `calculateScore`, `calculateTimeScore`,
`calculateFreqScore`, lines 151–182)

JS floating-point arithmetic is modelled by exact reals:
`TIME_WEIGHT = 0.6`, `FREQ_WEIGHT = 0.4`, `TIME_DECAY_DAYS = 7`,
`MAX_COUNT = 100`. -/

/-- Method `calculateTimeScore` (lines 162–170):
`daysPassed = (now - lastUsedAt) / (1000*60*60*24)`;
`score = exp(-daysPassed / 7)` clamped to `[0, 1]` by
`Math.max(0, Math.min(1, score))`. -/
noncomputable def calculateTimeScore (now lastUsedAt : ℝ) : ℝ :=
  let daysPassed := (now - lastUsedAt) / (1000 * 60 * 60 * 24)
  max 0 (min 1 (Real.exp (-daysPassed / 7)))

/-- Method `calculateFreqScore` (lines 176–182):
`score = log(1 + count) / log(1 + MAX_COUNT)` with `MAX_COUNT = 100`,
clamped to `[0, 1]`. -/
noncomputable def calculateFreqScore (useCount : ℕ) : ℝ :=
  max 0 (min 1 (Real.log (1 + useCount) / Real.log (1 + 100)))

/-- Method `calculateScore` (lines 151–156):
`TIME_WEIGHT * timeScore + FREQ_WEIGHT * freqScore`. -/
noncomputable def calculateScore (now lastUsedAt : ℝ) (useCount : ℕ) : ℝ :=
  0.6 * calculateTimeScore now lastUsedAt + 0.4 * calculateFreqScore useCount

/-- The ranker's score computation at wall-clock time `now`, as plugged into
the generic registry operations (`σ = ℝ`). -/
noncomputable def scReal (now : Int) : Int → Nat → ℝ :=
  fun lastUsedAt useCount => calculateScore (now : ℝ) (lastUsedAt : ℝ) useCount

theorem log_onePlusHundred_pos : 0 < Real.log (1 + 100) := by
  have : (1 : ℝ) < 1 + 100 := by norm_num
  exact Real.log_pos this

/-- The frequency score below saturation is the raw logarithm ratio. -/
theorem calculateFreqScore_eq_of_lt (u : Nat) (h : u < 100) :
    calculateFreqScore u = Real.log (1 + u) / Real.log (1 + 100) := by
  unfold calculateFreqScore
  have hnum : (0 : ℝ) ≤ Real.log (1 + u) := by
    apply Real.log_nonneg
    have : (0 : ℝ) ≤ (u : ℝ) := Nat.cast_nonneg u
    linarith
  have hlt : Real.log (1 + u) < Real.log (1 + 100) := by
    apply Real.log_lt_log
    · have : (0 : ℝ) ≤ (u : ℝ) := Nat.cast_nonneg u
      linarith
    · have : (u : ℝ) < 100 := by exact_mod_cast h
      linarith
  have hr1 : Real.log (1 + u) / Real.log (1 + 100) < 1 :=
    (div_lt_one log_onePlusHundred_pos).mpr hlt
  have hr0 : 0 ≤ Real.log (1 + u) / Real.log (1 + 100) :=
    div_nonneg hnum (le_of_lt log_onePlusHundred_pos)
  rw [min_eq_right (le_of_lt hr1), max_eq_right hr0]

/-- The frequency score saturates at 1 from `useCount = 100` on. -/
theorem calculateFreqScore_saturates (u : Nat) (h : 100 ≤ u) :
    calculateFreqScore u = 1 := by
  unfold calculateFreqScore
  have hle : Real.log (1 + 100) ≤ Real.log (1 + u) := by
    apply Real.log_le_log (by norm_num)
    have : (100 : ℝ) ≤ (u : ℝ) := by exact_mod_cast h
    linarith
  have hone : (1 : ℝ) ≤ Real.log (1 + u) / Real.log (1 + 100) :=
    (one_le_div log_onePlusHundred_pos).mpr hle
  rw [min_eq_left hone]
  rw [max_eq_right (by norm_num : (0 : ℝ) ≤ 1)]

/-- C1 counterexample: two entries last used at the same instant with
`useCount = 100` and `useCount = 101` get EQUAL scores (the frequency score
clamps to 1 from 100 uses on), so the larger `useCount` does not give a
strictly larger score. -/
theorem score_saturation_counterexample :
    calculateScore 0 0 100 = calculateScore 0 0 101
    ∧ ¬ calculateScore 0 0 100 < calculateScore 0 0 101 := by
  have h100 : calculateFreqScore 100 = 1 := calculateFreqScore_saturates 100 (le_refl 100)
  have h101 : calculateFreqScore 101 = 1 := calculateFreqScore_saturates 101 (by norm_num)
  have heq : calculateScore 0 0 100 = calculateScore 0 0 101 := by
    unfold calculateScore
    rw [h100, h101]
  exact ⟨heq, by rw [heq]; exact lt_irrefl _⟩

/-- C1 amended: every entry of the registry produced by
`recalculateScores` at time `now` carries the score
`0.6 * timeScore + 0.4 * freqScore` of its own `lastUsedAt`/`useCount`
(with `timeScore = clamp(exp(-days/7), 0, 1)` over 86400000-ms days and
`freqScore = clamp(ln(1+useCount)/ln(1+100), 0, 1)`); and for two entries
last used at the same instant, the one with the larger `useCount` has the
strictly larger score PROVIDED the smaller `useCount` is below
`MAX_COUNT = 100` — from 100 uses on the frequency score saturates at 1 and
the scores are equal. -/
theorem score_formula_and_monotonicity {D : Type} (now : Int)
    (l : List (RecentEntry ℝ D)) (nowR lastR : ℝ) (u1 u2 : Nat) :
    (∀ e ∈ recalculateScores (scReal now) l,
      e.score = 0.6 * calculateTimeScore (now : ℝ) (e.lastUsedAt : ℝ)
        + 0.4 * calculateFreqScore e.useCount)
    ∧ (u1 < u2 → u1 < 100 →
        calculateScore nowR lastR u1 < calculateScore nowR lastR u2) := by
  constructor
  · intro e he
    unfold recalculateScores at he
    rw [List.mem_mergeSort] at he
    rw [List.mem_map] at he
    obtain ⟨e0, _, rfl⟩ := he
    rfl
  · intro hlt hsat
    unfold calculateScore
    have hfreq : calculateFreqScore u1 < calculateFreqScore u2 := by
      rw [calculateFreqScore_eq_of_lt u1 hsat]
      have hr1lt : Real.log (1 + u1) / Real.log (1 + 100) < 1 := by
        apply (div_lt_one log_onePlusHundred_pos).mpr
        apply Real.log_lt_log
        · have : (0 : ℝ) ≤ (u1 : ℝ) := Nat.cast_nonneg u1
          linarith
        · have : (u1 : ℝ) < 100 := by exact_mod_cast hsat
          linarith
      have hr12 : Real.log (1 + u1) / Real.log (1 + 100)
          < Real.log (1 + u2) / Real.log (1 + 100) := by
        apply div_lt_div_of_pos_right ?_ log_onePlusHundred_pos
        apply Real.log_lt_log
        · have : (0 : ℝ) ≤ (u1 : ℝ) := Nat.cast_nonneg u1
          linarith
        · have : (u1 : ℝ) < (u2 : ℝ) := by exact_mod_cast hlt
          linarith
      unfold calculateFreqScore
      calc Real.log (1 + u1) / Real.log (1 + 100)
          < min 1 (Real.log (1 + u2) / Real.log (1 + 100)) := lt_min hr1lt hr12
        _ ≤ max 0 (min 1 (Real.log (1 + u2) / Real.log (1 + 100))) := le_max_right _ _
    have : (0.4 : ℝ) * calculateFreqScore u1 < 0.4 * calculateFreqScore u2 :=
      mul_lt_mul_of_pos_left hfreq (by norm_num)
    linarith

/-- Witness for amended C1: a one-entry registry recalculated at time 0, and
the strict comparison at `useCount` 1 versus 2. -/
theorem score_formula_and_monotonicity_witness :
    ((⟨"a", ItemType.project, 0, 1, scReal 0 0 1, none⟩ : RecentEntry ℝ Unit).score
        = 0.6 * calculateTimeScore ((0 : Int) : ℝ) (((0 : Int) : ℝ))
          + 0.4 * calculateFreqScore 1)
    ∧ ((1 : Nat) < 2 ∧ (1 : Nat) < 100
      ∧ calculateScore 0 0 1 < calculateScore 0 0 2) := by
  constructor
  · have hmem : (⟨"a", ItemType.project, 0, 1, scReal 0 0 1, none⟩ : RecentEntry ℝ Unit)
        ∈ recalculateScores (scReal 0) [⟨"a", ItemType.project, 0, 1, 37, none⟩] := by
      simp [recalculateScores, List.mem_mergeSort]
    exact (score_formula_and_monotonicity 0
      [(⟨"a", ItemType.project, 0, 1, 37, none⟩ : RecentEntry ℝ Unit)] 0 0 1 2).1 _ hmem
  · exact ⟨by decide, by decide,
      (score_formula_and_monotonicity 0 ([] : List (RecentEntry ℝ Unit)) 0 0 1 2).2
        (by decide) (by decide)⟩

/-! ### Capacity enforcement lemmas for `limitItems` / `addItem` -/

/-- Observation: the Bool predicate selecting entries of one type. -/
def byType {σ D : Type} (t : ItemType) : RecentEntry σ D → Bool :=
  fun e => decide (e.itemType = t)

/-- The per-type capacity used by `limitItems` for each item type: the
Project and WorkItem capacities come from the host configuration (defaults
20 and 50), the other four are the literals of `limitItems`. -/
def maxFor (config : String → Option Nat) : ItemType → Nat
  | ItemType.project => (config "maxRecentProjects").getD 20
  | ItemType.workItem => (config "maxRecentWorkItems").getD 50
  | ItemType.searchKeyword => 10
  | ItemType.codeGroup => 10
  | ItemType.codeRepo => 20
  | ItemType.codeBranch => 30

/-- The splice loop of one capacity block, as a fold. -/
def removeAllByKeys {σ D : Type} (rs : List (RecentEntry σ D))
    (items : List (RecentEntry σ D)) : List (RecentEntry σ D) :=
  rs.foldl (fun acc e => removeFirstByKey acc e.itemId e.itemType) items

theorem limitType_eq_removeAll {σ D : Type} [LinearOrder σ] (max : Nat)
    (typed items : List (RecentEntry σ D)) :
    limitType max typed items =
      if typed.length > max then
        removeAllByKeys
          ((typed.mergeSort (fun a b => decide (b.score ≤ a.score))).drop max) items
      else items := rfl

theorem removeFirstByKey_sublist {σ D : Type} (l : List (RecentEntry σ D))
    (id : String) (t : ItemType) :
    List.Sublist (removeFirstByKey l id t) l := by
  induction l with
  | nil => exact List.Sublist.refl []
  | cons e rest ih =>
    unfold removeFirstByKey
    by_cases h : e.itemId = id ∧ e.itemType = t
    · rw [if_pos h]; exact List.sublist_cons_self e rest
    · rw [if_neg h]; exact List.Sublist.cons₂ e ih

theorem removeAllByKeys_sublist {σ D : Type} (rs items : List (RecentEntry σ D)) :
    List.Sublist (removeAllByKeys rs items) items := by
  induction rs generalizing items with
  | nil => exact List.Sublist.refl items
  | cons r rest ih =>
    exact List.Sublist.trans (ih (removeFirstByKey items r.itemId r.itemType))
      (removeFirstByKey_sublist items r.itemId r.itemType)

theorem keysNodup_of_sublist {σ D : Type} {l1 l2 : List (RecentEntry σ D)}
    (h : List.Sublist l1 l2) (hnod : keysNodup l2) : keysNodup l1 :=
  List.Nodup.sublist (List.Sublist.map keyOf h) hnod

theorem removeFirstByKey_eq_filter {σ D : Type} (l : List (RecentEntry σ D))
    (id : String) (t : ItemType) (hnod : keysNodup l) :
    removeFirstByKey l id t
      = l.filter (fun e => decide (¬(e.itemId = id ∧ e.itemType = t))) := by
  induction l with
  | nil => rfl
  | cons e rest ih =>
    have hnod2 : keysNodup rest :=
      keysNodup_of_sublist (List.sublist_cons_self e rest) hnod
    have hnotmem : keyOf e ∉ rest.map keyOf := by
      unfold keysNodup at hnod
      rw [List.map_cons] at hnod
      exact (List.nodup_cons.mp hnod).1
    unfold removeFirstByKey
    by_cases h : e.itemId = id ∧ e.itemType = t
    · rw [if_pos h]
      rw [List.filter_cons_of_neg (by simp [h.1, h.2])]
      symm
      rw [List.filter_eq_self]
      intro x hx
      simp only [decide_eq_true_eq]
      rintro ⟨hid, ht⟩
      apply hnotmem
      rw [List.mem_map]
      refine ⟨x, hx, ?_⟩
      unfold keyOf
      rw [hid, ht, h.1, h.2]
    · rw [if_neg h]
      rw [List.filter_cons_of_pos (by simp only [decide_eq_true_eq]; exact h)]
      rw [ih hnod2]

theorem removeAllByKeys_eq_filter {σ D : Type} (rs : List (RecentEntry σ D))
    (items : List (RecentEntry σ D)) (hnod : keysNodup items) :
    removeAllByKeys rs items
      = items.filter (fun e => decide (∀ r ∈ rs, keyOf e ≠ keyOf r)) := by
  induction rs generalizing items with
  | nil =>
    have h1 : removeAllByKeys ([] : List (RecentEntry σ D)) items = items := rfl
    rw [h1]
    symm
    rw [List.filter_eq_self]
    intro x _
    simp
  | cons r rest ih =>
    have hstep : removeAllByKeys (r :: rest) items
        = removeAllByKeys rest (removeFirstByKey items r.itemId r.itemType) := rfl
    rw [hstep, removeFirstByKey_eq_filter items r.itemId r.itemType hnod]
    have hnod2 : keysNodup (items.filter
        (fun e => decide (¬(e.itemId = r.itemId ∧ e.itemType = r.itemType)))) :=
      keysNodup_of_sublist (List.filter_sublist items) hnod
    rw [ih _ hnod2, List.filter_filter]
    apply List.filter_congr
    intro x _
    rw [Bool.eq_iff_iff]
    simp only [Bool.and_eq_true, decide_eq_true_eq, List.forall_mem_cons, keyOf,
      ne_eq, Prod.mk.injEq, not_and]
    tauto

theorem limitType_sublist {σ D : Type} [LinearOrder σ] (max : Nat)
    (typed acc : List (RecentEntry σ D)) :
    List.Sublist (limitType max typed acc) acc := by
  rw [limitType_eq_removeAll]
  by_cases h : typed.length > max
  · rw [if_pos h]; exact removeAllByKeys_sublist _ acc
  · rw [if_neg h]

theorem filter_removeFirstByKey_ne {σ D : Type} (l : List (RecentEntry σ D))
    (id : String) (t t2 : ItemType) (hne : t ≠ t2) :
    (removeFirstByKey l id t).filter (byType t2) = l.filter (byType t2) := by
  induction l with
  | nil => rfl
  | cons e rest ih =>
    unfold removeFirstByKey
    by_cases h : e.itemId = id ∧ e.itemType = t
    · rw [if_pos h]
      symm
      apply List.filter_cons_of_neg
      simp only [byType, decide_eq_true_eq, h.2]
      exact fun hcontra => hne hcontra
    · rw [if_neg h]
      simp only [List.filter_cons]
      rw [ih]

theorem filter_removeAllByKeys_ne {σ D : Type} (rs : List (RecentEntry σ D))
    (items : List (RecentEntry σ D)) (t2 : ItemType)
    (hall : ∀ r ∈ rs, r.itemType ≠ t2) :
    (removeAllByKeys rs items).filter (byType t2) = items.filter (byType t2) := by
  induction rs generalizing items with
  | nil => rfl
  | cons r rest ih =>
    have hstep : removeAllByKeys (r :: rest) items
        = removeAllByKeys rest (removeFirstByKey items r.itemId r.itemType) := rfl
    rw [hstep]
    rw [ih _ (fun r2 hmem => hall r2 (List.mem_cons_of_mem r hmem))]
    exact filter_removeFirstByKey_ne items r.itemId r.itemType t2
      (hall r (List.mem_cons_self r rest))

theorem limitType_other {σ D : Type} [LinearOrder σ] (max : Nat)
    (typed acc : List (RecentEntry σ D)) (t t2 : ItemType) (hne : t ≠ t2)
    (hall : ∀ e ∈ typed, e.itemType = t) :
    (limitType max typed acc).filter (byType t2) = acc.filter (byType t2) := by
  rw [limitType_eq_removeAll]
  by_cases h : typed.length > max
  · rw [if_pos h]
    apply filter_removeAllByKeys_ne
    intro r hr
    have hr2 : r ∈ typed := by
      have hmem : r ∈ typed.mergeSort (fun a b => decide (b.score ≤ a.score)) :=
        (List.drop_sublist max _).mem hr
      rw [List.mem_mergeSort] at hmem
      exact hmem
    rw [hall r hr2]
    exact hne
  · rw [if_neg h]

theorem mergeSort_score_trans {σ D : Type} [LinearOrder σ] :
    ∀ a b c : RecentEntry σ D,
      (fun a b => decide (b.score ≤ a.score)) a b = true →
      (fun a b => decide (b.score ≤ a.score)) b c = true →
      (fun a b => decide (b.score ≤ a.score)) a c = true := by
  intro a b c h1 h2
  simp only [decide_eq_true_eq] at h1 h2 ⊢
  exact le_trans h2 h1

theorem mergeSort_score_total {σ D : Type} [LinearOrder σ] :
    ∀ a b : RecentEntry σ D,
      ((fun a b => decide (b.score ≤ a.score)) a b
        || (fun a b => decide (b.score ≤ a.score)) b a) = true := by
  intro a b
  simp only [Bool.or_eq_true, decide_eq_true_eq]
  exact le_total b.score a.score

theorem limitType_self_spec {σ D : Type} [LinearOrder σ] (max : Nat) (t : ItemType)
    (typed acc : List (RecentEntry σ D)) (hnod : keysNodup acc)
    (htyped : typed = acc.filter (byType t)) :
    ((limitType max typed acc).filter (byType t)).length = min typed.length max
    ∧ (typed.length = max + 1 →
        ∃ ev, ev ∈ typed ∧ (∀ e ∈ typed, ev.score ≤ e.score) ∧
          (limitType max typed acc).filter (byType t)
            = typed.filter (fun e => decide (e.itemId ≠ ev.itemId))) := by
  by_cases hgt : typed.length > max
  case neg =>
    have hres : limitType max typed acc = acc := by
      rw [limitType_eq_removeAll, if_neg hgt]
    constructor
    · rw [hres, ← htyped]
      omega
    · intro hl
      omega
  case pos =>
    have hperm : List.Perm
        (typed.mergeSort (fun a b => decide (b.score ≤ a.score))) typed :=
      List.mergeSort_perm typed _
    have hlen_sorted :
        (typed.mergeSort (fun a b => decide (b.score ≤ a.score))).length
          = typed.length := hperm.length_eq
    have hres : limitType max typed acc
        = removeAllByKeys
            ((typed.mergeSort (fun a b => decide (b.score ≤ a.score))).drop max) acc := by
      rw [limitType_eq_removeAll, if_pos hgt]
    have hfilter : limitType max typed acc
        = acc.filter (fun e => decide
            (∀ r ∈ (typed.mergeSort (fun a b => decide (b.score ≤ a.score))).drop max,
              keyOf e ≠ keyOf r)) := by
      rw [hres, removeAllByKeys_eq_filter _ acc hnod]
    -- the type-t slice of the result is the typed list minus the dropped keys
    have hslice : (limitType max typed acc).filter (byType t)
        = typed.filter (fun e => decide
            (∀ r ∈ (typed.mergeSort (fun a b => decide (b.score ≤ a.score))).drop max,
              keyOf e ≠ keyOf r)) := by
      rw [hfilter, List.filter_filter, htyped, List.filter_filter]
      apply List.filter_congr
      intro x _
      rw [Bool.and_comm]
    have hnodtyped : keysNodup typed := by
      rw [htyped]
      exact keysNodup_of_sublist (List.filter_sublist acc) hnod
    have hnodsorted : keysNodup
        (typed.mergeSort (fun a b => decide (b.score ≤ a.score))) := by
      unfold keysNodup
      rw [(hperm.map keyOf).nodup_iff]
      exact hnodtyped
    have hsplit : (typed.mergeSort (fun a b => decide (b.score ≤ a.score))).take max
          ++ (typed.mergeSort (fun a b => decide (b.score ≤ a.score))).drop max
        = typed.mergeSort (fun a b => decide (b.score ≤ a.score)) :=
      List.take_append_drop max _
    have hdisj : ∀ e ∈ (typed.mergeSort (fun a b => decide (b.score ≤ a.score))).take max,
        ∀ r ∈ (typed.mergeSort (fun a b => decide (b.score ≤ a.score))).drop max,
          keyOf e ≠ keyOf r := by
      have hnod2 : ((typed.mergeSort (fun a b => decide (b.score ≤ a.score))).take max
            ++ (typed.mergeSort (fun a b => decide (b.score ≤ a.score))).drop max).map keyOf
          |>.Nodup := by
        rw [hsplit]
        exact hnodsorted
      rw [List.map_append, List.nodup_append] at hnod2
      intro e he r hr hkey
      exact hnod2.2.2 (List.mem_map_of_mem keyOf he)
        (by rw [hkey]; exact List.mem_map_of_mem keyOf hr)
    have hfilter_sorted :
        (typed.mergeSort (fun a b => decide (b.score ≤ a.score))).filter
            (fun e => decide
              (∀ r ∈ (typed.mergeSort (fun a b => decide (b.score ≤ a.score))).drop max,
                keyOf e ≠ keyOf r))
          = (typed.mergeSort (fun a b => decide (b.score ≤ a.score))).take max := by
      have h1 : ((typed.mergeSort (fun a b => decide (b.score ≤ a.score))).take max).filter
            (fun e => decide
              (∀ r ∈ (typed.mergeSort (fun a b => decide (b.score ≤ a.score))).drop max,
                keyOf e ≠ keyOf r))
          = (typed.mergeSort (fun a b => decide (b.score ≤ a.score))).take max := by
        rw [List.filter_eq_self]
        intro e he
        simp only [decide_eq_true_eq]
        exact hdisj e he
      have h2 : ((typed.mergeSort (fun a b => decide (b.score ≤ a.score))).drop max).filter
            (fun e => decide
              (∀ r ∈ (typed.mergeSort (fun a b => decide (b.score ≤ a.score))).drop max,
                keyOf e ≠ keyOf r))
          = [] := by
        rw [List.filter_eq_nil_iff]
        intro r hr
        simp only [decide_eq_true_eq, not_forall]
        exact ⟨r, hr, fun h => h rfl⟩
      have hcomb : ((typed.mergeSort (fun a b => decide (b.score ≤ a.score))).take max
            ++ (typed.mergeSort (fun a b => decide (b.score ≤ a.score))).drop max).filter
              (fun e => decide
                (∀ r ∈ (typed.mergeSort (fun a b => decide (b.score ≤ a.score))).drop max,
                  keyOf e ≠ keyOf r))
          = (typed.mergeSort (fun a b => decide (b.score ≤ a.score))).take max := by
        rw [List.filter_append, h1, h2, List.append_nil]
      rw [hsplit] at hcomb
      exact hcomb
    have hslice_perm : List.Perm ((limitType max typed acc).filter (byType t))
        ((typed.mergeSort (fun a b => decide (b.score ≤ a.score))).take max) := by
      rw [hslice, ← hfilter_sorted]
      exact (hperm.symm.filter _)
    have hcount : ((limitType max typed acc).filter (byType t)).length
        = min typed.length max := by
      rw [hslice_perm.length_eq, List.length_take, hlen_sorted]
      omega
    refine ⟨hcount, ?_⟩
    intro hlen
    have hdroplen : ((typed.mergeSort (fun a b => decide (b.score ≤ a.score))).drop max).length = 1 := by
      rw [List.length_drop, hlen_sorted, hlen]
      omega
    obtain ⟨ev, hev⟩ := List.length_eq_one.mp hdroplen
    have hevmem : ev ∈ typed := by
      rw [← hperm.mem_iff]
      exact (List.drop_sublist max _).mem (by rw [hev]; exact List.mem_singleton_self ev)
    have hsorted := @List.sorted_mergeSort (RecentEntry σ D)
      (fun a b => decide (b.score ≤ a.score))
      mergeSort_score_trans mergeSort_score_total typed
    have hmin : ∀ e ∈ typed, ev.score ≤ e.score := by
      intro e he
      have hesorted : e ∈ (typed.mergeSort (fun a b => decide (b.score ≤ a.score))) := by
        rw [List.mem_mergeSort]
        exact he
      rw [← hsplit, hev] at hesorted
      rcases List.mem_append.mp hesorted with htake | hsing
      · have hpair := hsorted
        rw [← hsplit, hev] at hpair
        rw [List.pairwise_append] at hpair
        have := hpair.2.2 e htake ev (List.mem_singleton_self ev)
        simpa using this
      · rw [List.mem_singleton.mp hsing]
    refine ⟨ev, hevmem, hmin, ?_⟩
    rw [hslice, hev]
    apply List.filter_congr
    intro x hx
    rw [Bool.eq_iff_iff]
    simp only [List.mem_singleton, decide_eq_true_eq, forall_eq, keyOf, ne_eq,
      Prod.mk.injEq, not_and]
    have hxt : x.itemType = t := by
      rw [htyped] at hx
      have := (List.mem_filter.mp hx).2
      simpa [byType] using this
    have hevt : ev.itemType = t := by
      rw [htyped] at hevmem
      have := (List.mem_filter.mp hevmem).2
      simpa [byType] using this
    constructor
    · intro h hcontra
      exact h hcontra (by rw [hxt, hevt])
    · intro h hid _
      exact h hid

theorem mem_filter_byType {σ D : Type} {t : ItemType}
    {items : List (RecentEntry σ D)} :
    ∀ e ∈ items.filter (byType t), e.itemType = t := by
  intro e he
  have := (List.mem_filter.mp he).2
  simpa [byType] using this

theorem limitType_pres {σ D : Type} [LinearOrder σ] (max : Nat)
    (ti t : ItemType) (hne : ti ≠ t)
    (acc items : List (RecentEntry σ D)) :
    (limitType max (items.filter (byType ti)) acc).filter (byType t)
      = acc.filter (byType t) :=
  limitType_other max _ acc ti t hne mem_filter_byType

theorem limitItems_eq_blocks {σ D : Type} [LinearOrder σ]
    (config : String → Option Nat) (items : List (RecentEntry σ D)) :
    limitItems config items =
      limitType (maxFor config ItemType.codeBranch)
        (items.filter (byType ItemType.codeBranch))
        (limitType (maxFor config ItemType.codeRepo)
          (items.filter (byType ItemType.codeRepo))
          (limitType (maxFor config ItemType.codeGroup)
            (items.filter (byType ItemType.codeGroup))
            (limitType (maxFor config ItemType.searchKeyword)
              (items.filter (byType ItemType.searchKeyword))
              (limitType (maxFor config ItemType.workItem)
                (items.filter (byType ItemType.workItem))
                (limitType (maxFor config ItemType.project)
                  (items.filter (byType ItemType.project)) items))))) := rfl

theorem limitItems_sublist {σ D : Type} [LinearOrder σ]
    (config : String → Option Nat) (items : List (RecentEntry σ D)) :
    List.Sublist (limitItems config items) items := by
  rw [limitItems_eq_blocks]
  exact List.Sublist.trans (limitType_sublist _ _ _)
    (List.Sublist.trans (limitType_sublist _ _ _)
      (List.Sublist.trans (limitType_sublist _ _ _)
        (List.Sublist.trans (limitType_sublist _ _ _)
          (List.Sublist.trans (limitType_sublist _ _ _)
            (limitType_sublist _ _ _)))))

theorem limitItems_spec {σ D : Type} [LinearOrder σ]
    (config : String → Option Nat) (items : List (RecentEntry σ D))
    (hnod : keysNodup items) (t : ItemType) :
    ((limitItems config items).filter (byType t)).length
      = min ((items.filter (byType t)).length) (maxFor config t)
    ∧ keysNodup (limitItems config items)
    ∧ ((items.filter (byType t)).length = maxFor config t + 1 →
        ∃ ev, ev ∈ items.filter (byType t)
          ∧ (∀ e ∈ items.filter (byType t), ev.score ≤ e.score)
          ∧ (limitItems config items).filter (byType t)
            = (items.filter (byType t)).filter
                (fun e => decide (e.itemId ≠ ev.itemId))) := by
  have hnodres : keysNodup (limitItems config items) :=
    keysNodup_of_sublist (limitItems_sublist config items) hnod
  -- the six intermediate registries
  have hs1 : List.Sublist (limitType (maxFor config ItemType.project)
      (items.filter (byType ItemType.project)) items) items :=
    limitType_sublist _ _ _
  have hnod1 := keysNodup_of_sublist hs1 hnod
  have hs2 : List.Sublist (limitType (maxFor config ItemType.workItem)
      (items.filter (byType ItemType.workItem))
      (limitType (maxFor config ItemType.project)
        (items.filter (byType ItemType.project)) items))
      (limitType (maxFor config ItemType.project)
        (items.filter (byType ItemType.project)) items) :=
    limitType_sublist _ _ _
  have hnod2 := keysNodup_of_sublist hs2 hnod1
  have hs3 : List.Sublist (limitType (maxFor config ItemType.searchKeyword)
      (items.filter (byType ItemType.searchKeyword))
      (limitType (maxFor config ItemType.workItem)
        (items.filter (byType ItemType.workItem))
        (limitType (maxFor config ItemType.project)
          (items.filter (byType ItemType.project)) items)))
      (limitType (maxFor config ItemType.workItem)
        (items.filter (byType ItemType.workItem))
        (limitType (maxFor config ItemType.project)
          (items.filter (byType ItemType.project)) items)) :=
    limitType_sublist _ _ _
  have hnod3 := keysNodup_of_sublist hs3 hnod2
  have hs4 : List.Sublist (limitType (maxFor config ItemType.codeGroup)
      (items.filter (byType ItemType.codeGroup))
      (limitType (maxFor config ItemType.searchKeyword)
        (items.filter (byType ItemType.searchKeyword))
        (limitType (maxFor config ItemType.workItem)
          (items.filter (byType ItemType.workItem))
          (limitType (maxFor config ItemType.project)
            (items.filter (byType ItemType.project)) items))))
      (limitType (maxFor config ItemType.searchKeyword)
        (items.filter (byType ItemType.searchKeyword))
        (limitType (maxFor config ItemType.workItem)
          (items.filter (byType ItemType.workItem))
          (limitType (maxFor config ItemType.project)
            (items.filter (byType ItemType.project)) items))) :=
    limitType_sublist _ _ _
  have hnod4 := keysNodup_of_sublist hs4 hnod3
  have hs5 : List.Sublist (limitType (maxFor config ItemType.codeRepo)
      (items.filter (byType ItemType.codeRepo))
      (limitType (maxFor config ItemType.codeGroup)
        (items.filter (byType ItemType.codeGroup))
        (limitType (maxFor config ItemType.searchKeyword)
          (items.filter (byType ItemType.searchKeyword))
          (limitType (maxFor config ItemType.workItem)
            (items.filter (byType ItemType.workItem))
            (limitType (maxFor config ItemType.project)
              (items.filter (byType ItemType.project)) items)))))
      (limitType (maxFor config ItemType.codeGroup)
        (items.filter (byType ItemType.codeGroup))
        (limitType (maxFor config ItemType.searchKeyword)
          (items.filter (byType ItemType.searchKeyword))
          (limitType (maxFor config ItemType.workItem)
            (items.filter (byType ItemType.workItem))
            (limitType (maxFor config ItemType.project)
              (items.filter (byType ItemType.project)) items)))) :=
    limitType_sublist _ _ _
  have hnod5 := keysNodup_of_sublist hs5 hnod4
  refine ⟨?_, hnodres, ?_⟩
  all_goals
    cases t with
    | project =>
      have hself := limitType_self_spec (maxFor config ItemType.project)
        ItemType.project (items.filter (byType ItemType.project)) items hnod rfl
      have hp2 := limitType_pres (maxFor config ItemType.workItem)
        ItemType.workItem ItemType.project (by decide)
        (limitType (maxFor config ItemType.project)
          (items.filter (byType ItemType.project)) items) items
      have hp3 := limitType_pres (maxFor config ItemType.searchKeyword)
        ItemType.searchKeyword ItemType.project (by decide)
        (limitType (maxFor config ItemType.workItem)
          (items.filter (byType ItemType.workItem))
          (limitType (maxFor config ItemType.project)
            (items.filter (byType ItemType.project)) items)) items
      have hp4 := limitType_pres (maxFor config ItemType.codeGroup)
        ItemType.codeGroup ItemType.project (by decide)
        (limitType (maxFor config ItemType.searchKeyword)
          (items.filter (byType ItemType.searchKeyword))
          (limitType (maxFor config ItemType.workItem)
            (items.filter (byType ItemType.workItem))
            (limitType (maxFor config ItemType.project)
              (items.filter (byType ItemType.project)) items))) items
      have hp5 := limitType_pres (maxFor config ItemType.codeRepo)
        ItemType.codeRepo ItemType.project (by decide)
        (limitType (maxFor config ItemType.codeGroup)
          (items.filter (byType ItemType.codeGroup))
          (limitType (maxFor config ItemType.searchKeyword)
            (items.filter (byType ItemType.searchKeyword))
            (limitType (maxFor config ItemType.workItem)
              (items.filter (byType ItemType.workItem))
              (limitType (maxFor config ItemType.project)
                (items.filter (byType ItemType.project)) items)))) items
      have hp6 := limitType_pres (maxFor config ItemType.codeBranch)
        ItemType.codeBranch ItemType.project (by decide)
        (limitType (maxFor config ItemType.codeRepo)
          (items.filter (byType ItemType.codeRepo))
          (limitType (maxFor config ItemType.codeGroup)
            (items.filter (byType ItemType.codeGroup))
            (limitType (maxFor config ItemType.searchKeyword)
              (items.filter (byType ItemType.searchKeyword))
              (limitType (maxFor config ItemType.workItem)
                (items.filter (byType ItemType.workItem))
                (limitType (maxFor config ItemType.project)
                  (items.filter (byType ItemType.project)) items))))) items
      rw [limitItems_eq_blocks, hp6, hp5, hp4, hp3, hp2]
      first
        | exact hself.1
        | exact hself.2
    | workItem =>
      have hq1 := limitType_pres (maxFor config ItemType.project)
        ItemType.project ItemType.workItem (by decide) items items
      have hself := limitType_self_spec (maxFor config ItemType.workItem)
        ItemType.workItem (items.filter (byType ItemType.workItem))
        (limitType (maxFor config ItemType.project)
          (items.filter (byType ItemType.project)) items) hnod1 hq1.symm
      have hp3 := limitType_pres (maxFor config ItemType.searchKeyword)
        ItemType.searchKeyword ItemType.workItem (by decide)
        (limitType (maxFor config ItemType.workItem)
          (items.filter (byType ItemType.workItem))
          (limitType (maxFor config ItemType.project)
            (items.filter (byType ItemType.project)) items)) items
      have hp4 := limitType_pres (maxFor config ItemType.codeGroup)
        ItemType.codeGroup ItemType.workItem (by decide)
        (limitType (maxFor config ItemType.searchKeyword)
          (items.filter (byType ItemType.searchKeyword))
          (limitType (maxFor config ItemType.workItem)
            (items.filter (byType ItemType.workItem))
            (limitType (maxFor config ItemType.project)
              (items.filter (byType ItemType.project)) items))) items
      have hp5 := limitType_pres (maxFor config ItemType.codeRepo)
        ItemType.codeRepo ItemType.workItem (by decide)
        (limitType (maxFor config ItemType.codeGroup)
          (items.filter (byType ItemType.codeGroup))
          (limitType (maxFor config ItemType.searchKeyword)
            (items.filter (byType ItemType.searchKeyword))
            (limitType (maxFor config ItemType.workItem)
              (items.filter (byType ItemType.workItem))
              (limitType (maxFor config ItemType.project)
                (items.filter (byType ItemType.project)) items)))) items
      have hp6 := limitType_pres (maxFor config ItemType.codeBranch)
        ItemType.codeBranch ItemType.workItem (by decide)
        (limitType (maxFor config ItemType.codeRepo)
          (items.filter (byType ItemType.codeRepo))
          (limitType (maxFor config ItemType.codeGroup)
            (items.filter (byType ItemType.codeGroup))
            (limitType (maxFor config ItemType.searchKeyword)
              (items.filter (byType ItemType.searchKeyword))
              (limitType (maxFor config ItemType.workItem)
                (items.filter (byType ItemType.workItem))
                (limitType (maxFor config ItemType.project)
                  (items.filter (byType ItemType.project)) items))))) items
      rw [limitItems_eq_blocks, hp6, hp5, hp4, hp3]
      first
        | exact hself.1
        | exact hself.2
    | searchKeyword =>
      have hq1 := limitType_pres (maxFor config ItemType.project)
        ItemType.project ItemType.searchKeyword (by decide) items items
      have hq2 := limitType_pres (maxFor config ItemType.workItem)
        ItemType.workItem ItemType.searchKeyword (by decide)
        (limitType (maxFor config ItemType.project)
          (items.filter (byType ItemType.project)) items) items
      have hself := limitType_self_spec (maxFor config ItemType.searchKeyword)
        ItemType.searchKeyword (items.filter (byType ItemType.searchKeyword))
        (limitType (maxFor config ItemType.workItem)
          (items.filter (byType ItemType.workItem))
          (limitType (maxFor config ItemType.project)
            (items.filter (byType ItemType.project)) items)) hnod2
        (by rw [hq2, hq1])
      have hp4 := limitType_pres (maxFor config ItemType.codeGroup)
        ItemType.codeGroup ItemType.searchKeyword (by decide)
        (limitType (maxFor config ItemType.searchKeyword)
          (items.filter (byType ItemType.searchKeyword))
          (limitType (maxFor config ItemType.workItem)
            (items.filter (byType ItemType.workItem))
            (limitType (maxFor config ItemType.project)
              (items.filter (byType ItemType.project)) items))) items
      have hp5 := limitType_pres (maxFor config ItemType.codeRepo)
        ItemType.codeRepo ItemType.searchKeyword (by decide)
        (limitType (maxFor config ItemType.codeGroup)
          (items.filter (byType ItemType.codeGroup))
          (limitType (maxFor config ItemType.searchKeyword)
            (items.filter (byType ItemType.searchKeyword))
            (limitType (maxFor config ItemType.workItem)
              (items.filter (byType ItemType.workItem))
              (limitType (maxFor config ItemType.project)
                (items.filter (byType ItemType.project)) items)))) items
      have hp6 := limitType_pres (maxFor config ItemType.codeBranch)
        ItemType.codeBranch ItemType.searchKeyword (by decide)
        (limitType (maxFor config ItemType.codeRepo)
          (items.filter (byType ItemType.codeRepo))
          (limitType (maxFor config ItemType.codeGroup)
            (items.filter (byType ItemType.codeGroup))
            (limitType (maxFor config ItemType.searchKeyword)
              (items.filter (byType ItemType.searchKeyword))
              (limitType (maxFor config ItemType.workItem)
                (items.filter (byType ItemType.workItem))
                (limitType (maxFor config ItemType.project)
                  (items.filter (byType ItemType.project)) items))))) items
      rw [limitItems_eq_blocks, hp6, hp5, hp4]
      first
        | exact hself.1
        | exact hself.2
    | codeGroup =>
      have hq1 := limitType_pres (maxFor config ItemType.project)
        ItemType.project ItemType.codeGroup (by decide) items items
      have hq2 := limitType_pres (maxFor config ItemType.workItem)
        ItemType.workItem ItemType.codeGroup (by decide)
        (limitType (maxFor config ItemType.project)
          (items.filter (byType ItemType.project)) items) items
      have hq3 := limitType_pres (maxFor config ItemType.searchKeyword)
        ItemType.searchKeyword ItemType.codeGroup (by decide)
        (limitType (maxFor config ItemType.workItem)
          (items.filter (byType ItemType.workItem))
          (limitType (maxFor config ItemType.project)
            (items.filter (byType ItemType.project)) items)) items
      have hself := limitType_self_spec (maxFor config ItemType.codeGroup)
        ItemType.codeGroup (items.filter (byType ItemType.codeGroup))
        (limitType (maxFor config ItemType.searchKeyword)
          (items.filter (byType ItemType.searchKeyword))
          (limitType (maxFor config ItemType.workItem)
            (items.filter (byType ItemType.workItem))
            (limitType (maxFor config ItemType.project)
              (items.filter (byType ItemType.project)) items))) hnod3
        (by rw [hq3, hq2, hq1])
      have hp5 := limitType_pres (maxFor config ItemType.codeRepo)
        ItemType.codeRepo ItemType.codeGroup (by decide)
        (limitType (maxFor config ItemType.codeGroup)
          (items.filter (byType ItemType.codeGroup))
          (limitType (maxFor config ItemType.searchKeyword)
            (items.filter (byType ItemType.searchKeyword))
            (limitType (maxFor config ItemType.workItem)
              (items.filter (byType ItemType.workItem))
              (limitType (maxFor config ItemType.project)
                (items.filter (byType ItemType.project)) items)))) items
      have hp6 := limitType_pres (maxFor config ItemType.codeBranch)
        ItemType.codeBranch ItemType.codeGroup (by decide)
        (limitType (maxFor config ItemType.codeRepo)
          (items.filter (byType ItemType.codeRepo))
          (limitType (maxFor config ItemType.codeGroup)
            (items.filter (byType ItemType.codeGroup))
            (limitType (maxFor config ItemType.searchKeyword)
              (items.filter (byType ItemType.searchKeyword))
              (limitType (maxFor config ItemType.workItem)
                (items.filter (byType ItemType.workItem))
                (limitType (maxFor config ItemType.project)
                  (items.filter (byType ItemType.project)) items))))) items
      rw [limitItems_eq_blocks, hp6, hp5]
      first
        | exact hself.1
        | exact hself.2
    | codeRepo =>
      have hq1 := limitType_pres (maxFor config ItemType.project)
        ItemType.project ItemType.codeRepo (by decide) items items
      have hq2 := limitType_pres (maxFor config ItemType.workItem)
        ItemType.workItem ItemType.codeRepo (by decide)
        (limitType (maxFor config ItemType.project)
          (items.filter (byType ItemType.project)) items) items
      have hq3 := limitType_pres (maxFor config ItemType.searchKeyword)
        ItemType.searchKeyword ItemType.codeRepo (by decide)
        (limitType (maxFor config ItemType.workItem)
          (items.filter (byType ItemType.workItem))
          (limitType (maxFor config ItemType.project)
            (items.filter (byType ItemType.project)) items)) items
      have hq4 := limitType_pres (maxFor config ItemType.codeGroup)
        ItemType.codeGroup ItemType.codeRepo (by decide)
        (limitType (maxFor config ItemType.searchKeyword)
          (items.filter (byType ItemType.searchKeyword))
          (limitType (maxFor config ItemType.workItem)
            (items.filter (byType ItemType.workItem))
            (limitType (maxFor config ItemType.project)
              (items.filter (byType ItemType.project)) items))) items
      have hself := limitType_self_spec (maxFor config ItemType.codeRepo)
        ItemType.codeRepo (items.filter (byType ItemType.codeRepo))
        (limitType (maxFor config ItemType.codeGroup)
          (items.filter (byType ItemType.codeGroup))
          (limitType (maxFor config ItemType.searchKeyword)
            (items.filter (byType ItemType.searchKeyword))
            (limitType (maxFor config ItemType.workItem)
              (items.filter (byType ItemType.workItem))
              (limitType (maxFor config ItemType.project)
                (items.filter (byType ItemType.project)) items)))) hnod4
        (by rw [hq4, hq3, hq2, hq1])
      have hp6 := limitType_pres (maxFor config ItemType.codeBranch)
        ItemType.codeBranch ItemType.codeRepo (by decide)
        (limitType (maxFor config ItemType.codeRepo)
          (items.filter (byType ItemType.codeRepo))
          (limitType (maxFor config ItemType.codeGroup)
            (items.filter (byType ItemType.codeGroup))
            (limitType (maxFor config ItemType.searchKeyword)
              (items.filter (byType ItemType.searchKeyword))
              (limitType (maxFor config ItemType.workItem)
                (items.filter (byType ItemType.workItem))
                (limitType (maxFor config ItemType.project)
                  (items.filter (byType ItemType.project)) items))))) items
      rw [limitItems_eq_blocks, hp6]
      first
        | exact hself.1
        | exact hself.2
    | codeBranch =>
      have hq1 := limitType_pres (maxFor config ItemType.project)
        ItemType.project ItemType.codeBranch (by decide) items items
      have hq2 := limitType_pres (maxFor config ItemType.workItem)
        ItemType.workItem ItemType.codeBranch (by decide)
        (limitType (maxFor config ItemType.project)
          (items.filter (byType ItemType.project)) items) items
      have hq3 := limitType_pres (maxFor config ItemType.searchKeyword)
        ItemType.searchKeyword ItemType.codeBranch (by decide)
        (limitType (maxFor config ItemType.workItem)
          (items.filter (byType ItemType.workItem))
          (limitType (maxFor config ItemType.project)
            (items.filter (byType ItemType.project)) items)) items
      have hq4 := limitType_pres (maxFor config ItemType.codeGroup)
        ItemType.codeGroup ItemType.codeBranch (by decide)
        (limitType (maxFor config ItemType.searchKeyword)
          (items.filter (byType ItemType.searchKeyword))
          (limitType (maxFor config ItemType.workItem)
            (items.filter (byType ItemType.workItem))
            (limitType (maxFor config ItemType.project)
              (items.filter (byType ItemType.project)) items))) items
      have hq5 := limitType_pres (maxFor config ItemType.codeRepo)
        ItemType.codeRepo ItemType.codeBranch (by decide)
        (limitType (maxFor config ItemType.codeGroup)
          (items.filter (byType ItemType.codeGroup))
          (limitType (maxFor config ItemType.searchKeyword)
            (items.filter (byType ItemType.searchKeyword))
            (limitType (maxFor config ItemType.workItem)
              (items.filter (byType ItemType.workItem))
              (limitType (maxFor config ItemType.project)
                (items.filter (byType ItemType.project)) items)))) items
      have hself := limitType_self_spec (maxFor config ItemType.codeBranch)
        ItemType.codeBranch (items.filter (byType ItemType.codeBranch))
        (limitType (maxFor config ItemType.codeRepo)
          (items.filter (byType ItemType.codeRepo))
          (limitType (maxFor config ItemType.codeGroup)
            (items.filter (byType ItemType.codeGroup))
            (limitType (maxFor config ItemType.searchKeyword)
              (items.filter (byType ItemType.searchKeyword))
              (limitType (maxFor config ItemType.workItem)
                (items.filter (byType ItemType.workItem))
                (limitType (maxFor config ItemType.project)
                  (items.filter (byType ItemType.project)) items))))) hnod5
        (by rw [hq5, hq4, hq3, hq2, hq1])
      rw [limitItems_eq_blocks]
      first
        | exact hself.1
        | exact hself.2

theorem upsertFirst_of_fresh {σ D : Type} (id : String) (t : ItemType)
    (upd : RecentEntry σ D → RecentEntry σ D) (newE : RecentEntry σ D)
    (l : List (RecentEntry σ D))
    (hfresh : ∀ e ∈ l, ¬(e.itemId = id ∧ e.itemType = t)) :
    upsertFirst id t upd newE l = l ++ [newE] := by
  induction l with
  | nil => rfl
  | cons e rest ih =>
    unfold upsertFirst
    rw [if_neg (hfresh e (List.mem_cons_self e rest))]
    rw [ih (fun e2 hmem => hfresh e2 (List.mem_cons_of_mem e hmem))]
    rfl

theorem upsertFirst_map_keyOf {σ D : Type} (id : String) (t : ItemType)
    (upd : RecentEntry σ D → RecentEntry σ D) (newE : RecentEntry σ D)
    (l : List (RecentEntry σ D))
    (hupd : ∀ e, keyOf (upd e) = keyOf e) :
    (upsertFirst id t upd newE l).map keyOf = l.map keyOf
    ∨ (upsertFirst id t upd newE l).map keyOf = l.map keyOf ++ [keyOf newE] := by
  induction l with
  | nil => right; rfl
  | cons e rest ih =>
    unfold upsertFirst
    by_cases h : e.itemId = id ∧ e.itemType = t
    · left
      rw [if_pos h, List.map_cons, List.map_cons, hupd e]
    · rw [if_neg h, List.map_cons, List.map_cons]
      rcases ih with h1 | h1
      · left; rw [h1]
      · right; rw [h1]; rfl

theorem keysNodup_upsertFirst {σ D : Type} (id : String) (t : ItemType)
    (upd : RecentEntry σ D → RecentEntry σ D) (newE : RecentEntry σ D)
    (l : List (RecentEntry σ D)) (hnod : keysNodup l)
    (hupd : ∀ e, keyOf (upd e) = keyOf e) (hkey : keyOf newE = (id, t)) :
    keysNodup (upsertFirst id t upd newE l) := by
  induction l with
  | nil =>
    unfold keysNodup upsertFirst
    exact List.nodup_singleton (keyOf newE)
  | cons e rest ih =>
    unfold keysNodup at hnod
    rw [List.map_cons, List.nodup_cons] at hnod
    have hnodrest : keysNodup rest := hnod.2
    unfold upsertFirst
    by_cases h : e.itemId = id ∧ e.itemType = t
    · rw [if_pos h]
      unfold keysNodup
      rw [List.map_cons, List.nodup_cons, hupd e]
      exact ⟨hnod.1, hnod.2⟩
    · rw [if_neg h]
      unfold keysNodup
      rw [List.map_cons, List.nodup_cons]
      refine ⟨?_, ih hnodrest⟩
      rcases upsertFirst_map_keyOf id t upd newE rest hupd with h1 | h1
      · rw [h1]; exact hnod.1
      · rw [h1, List.mem_append]
        rintro (hmem | hmem)
        · exact hnod.1 hmem
        · rw [List.mem_singleton] at hmem
          rw [hkey] at hmem
          unfold keyOf at hmem
          rw [Prod.mk.injEq] at hmem
          exact h ⟨hmem.1, hmem.2⟩

theorem keysNodup_append_fresh {σ D : Type} (l : List (RecentEntry σ D))
    (newE : RecentEntry σ D) (hnod : keysNodup l)
    (hfresh : ∀ e ∈ l, keyOf e ≠ keyOf newE) :
    keysNodup (l ++ [newE]) := by
  unfold keysNodup
  rw [List.map_append, List.nodup_append]
  refine ⟨hnod, List.nodup_singleton _, ?_⟩
  rw [List.disjoint_left]
  intro k hk hmem
  rw [List.mem_map] at hk hmem
  obtain ⟨e, he, rfl⟩ := hk
  obtain ⟨e2, he2, hkey2⟩ := hmem
  rw [List.mem_singleton] at he2
  subst he2
  exact hfresh e he hkey2.symm

theorem recalc_filter_perm {σ D : Type} [LinearOrder σ] (sc : Int → Nat → σ)
    (l : List (RecentEntry σ D)) (t : ItemType) :
    List.Perm ((recalculateScores sc l).filter (byType t))
      ((l.filter (byType t)).map
        (fun e => { e with score := sc e.lastUsedAt e.useCount })) := by
  unfold recalculateScores
  have hperm := List.mergeSort_perm
    (l.map (fun e => { e with score := sc e.lastUsedAt e.useCount }))
    (fun a b => decide (b.score ≤ a.score))
  have h1 := hperm.filter (byType t)
  have h2 : (l.map (fun e => { e with score := sc e.lastUsedAt e.useCount })).filter
        (byType t)
      = (l.filter (byType t)).map
          (fun e => { e with score := sc e.lastUsedAt e.useCount }) := by
    rw [List.filter_map]
    rfl
  rw [h2] at h1
  exact h1

theorem recalc_count {σ D : Type} [LinearOrder σ] (sc : Int → Nat → σ)
    (l : List (RecentEntry σ D)) (t : ItemType) :
    ((recalculateScores sc l).filter (byType t)).length
      = (l.filter (byType t)).length := by
  rw [(recalc_filter_perm sc l t).length_eq, List.length_map]

theorem recalc_ids_mem {σ D : Type} [LinearOrder σ] (sc : Int → Nat → σ)
    (l : List (RecentEntry σ D)) (t : ItemType) (k : String) :
    (k ∈ ((recalculateScores sc l).filter (byType t)).map (fun e => e.itemId)
      ↔ k ∈ (l.filter (byType t)).map (fun e => e.itemId)) := by
  rw [((recalc_filter_perm sc l t).map (fun e => e.itemId)).mem_iff]
  rw [List.map_map]
  rfl

/-- C2 amended: for a registry with pairwise-distinct entry identities, after
every `addItem` each type holds at most `maxFor config` entries (Project and
WorkItem capacities configurable with defaults 20 and 50; SearchKeyword 10,
CodeGroup 10, CodeRepo 20 and CodeBranch 30 are fixed constants of
`limitItems`); and when the `(max+1)`-th distinct item of a type is added to
a type at capacity, exactly one entry of that type is removed — one with the
lowest stored score among that type's entries after the upsert — leaving
exactly `max` entries of the type: the surviving ids are exactly the upserted
type's ids minus the evicted one. -/
theorem addItem_capacity {σ D : Type} [LinearOrder σ] (sc : Int → Nat → σ)
    (config : String → Option Nat) (now : Int) (id : String) (t : ItemType)
    (d : Option D) (items : List (RecentEntry σ D)) (hnod : keysNodup items) :
    (∀ ty, ((addItem sc config now id t d items).filter (byType ty)).length
        ≤ maxFor config ty)
    ∧ ((items.filter (byType t)).length = maxFor config t →
       (∀ e ∈ items, ¬(e.itemId = id ∧ e.itemType = t)) →
       ((addItem sc config now id t d items).filter (byType t)).length
          = maxFor config t
       ∧ ∃ ev, ev ∈ (items ++ [(⟨id, t, now, 1, sc now 1, d⟩
              : RecentEntry σ D)]).filter (byType t)
          ∧ (∀ e ∈ (items ++ [(⟨id, t, now, 1, sc now 1, d⟩
                : RecentEntry σ D)]).filter (byType t),
              ev.score ≤ e.score)
          ∧ (∀ k, k ∈ ((addItem sc config now id t d items).filter (byType t)).map
                (fun e => e.itemId)
              ↔ (k ∈ ((items ++ [(⟨id, t, now, 1, sc now 1, d⟩
                  : RecentEntry σ D)]).filter
                  (byType t)).map (fun e => e.itemId) ∧ k ≠ ev.itemId))) := by
  have hupd : ∀ e : RecentEntry σ D,
      keyOf ({ e with
        lastUsedAt := now,
        useCount := e.useCount + 1,
        data := jsOr d e.data,
        score := sc now (e.useCount + 1) }) = keyOf e := fun e => rfl
  constructor
  · intro ty
    have hnodUp : keysNodup (upsertFirst id t
        (fun old =>
          { old with
            lastUsedAt := now,
            useCount := old.useCount + 1,
            data := jsOr d old.data,
            score := sc now (old.useCount + 1) })
        ⟨id, t, now, 1, sc now 1, d⟩ items) :=
      keysNodup_upsertFirst id t _ _ items hnod hupd rfl
    have hspec := limitItems_spec config _ hnodUp ty
    calc ((addItem sc config now id t d items).filter (byType ty)).length
        = ((limitItems config (upsertFirst id t
            (fun old =>
              { old with
                lastUsedAt := now,
                useCount := old.useCount + 1,
                data := jsOr d old.data,
                score := sc now (old.useCount + 1) })
            ⟨id, t, now, 1, sc now 1, d⟩ items)).filter (byType ty)).length :=
          recalc_count sc _ ty
      _ ≤ maxFor config ty := by rw [hspec.1]; exact min_le_right _ _
  · intro hcount hfresh
    have hfreshk : ∀ e ∈ items, keyOf e ≠ keyOf (⟨id, t, now, 1, sc now 1, d⟩
        : RecentEntry σ D) := by
      intro e he hk
      unfold keyOf at hk
      rw [Prod.mk.injEq] at hk
      exact hfresh e he ⟨hk.1, hk.2⟩
    have hupeq : upsertFirst id t
        (fun old =>
          { old with
            lastUsedAt := now,
            useCount := old.useCount + 1,
            data := jsOr d old.data,
            score := sc now (old.useCount + 1) })
        (⟨id, t, now, 1, sc now 1, d⟩ : RecentEntry σ D) items
        = items ++ [⟨id, t, now, 1, sc now 1, d⟩] :=
      upsertFirst_of_fresh id t _ _ items hfresh
    have haddeq : addItem sc config now id t d items
        = recalculateScores sc
            (limitItems config (items ++ [⟨id, t, now, 1, sc now 1, d⟩])) := by
      unfold addItem
      rw [hupeq]
    have hnodUp : keysNodup (items ++ [(⟨id, t, now, 1, sc now 1, d⟩
        : RecentEntry σ D)]) :=
      keysNodup_append_fresh items _ hnod hfreshk
    have htypedUp : (items ++ [(⟨id, t, now, 1, sc now 1, d⟩
          : RecentEntry σ D)]).filter (byType t)
        = items.filter (byType t) ++ [⟨id, t, now, 1, sc now 1, d⟩] := by
      rw [List.filter_append]
      congr 1
      simp [byType]
    have hlenUp : ((items ++ [(⟨id, t, now, 1, sc now 1, d⟩
          : RecentEntry σ D)]).filter (byType t)).length
        = maxFor config t + 1 := by
      rw [htypedUp, List.length_append, hcount]
      rfl
    have hspec := limitItems_spec config
      (items ++ [⟨id, t, now, 1, sc now 1, d⟩]) hnodUp t
    obtain ⟨ev, hevmem, hevmin, heq⟩ := hspec.2.2 hlenUp
    have hcount2 : ((addItem sc config now id t d items).filter (byType t)).length
        = maxFor config t := by
      rw [haddeq, recalc_count, hspec.1, hlenUp]
      omega
    refine ⟨hcount2, ev, hevmem, hevmin, ?_⟩
    intro k
    rw [haddeq, recalc_ids_mem, heq]
    constructor
    · intro hmem
      rw [List.mem_map] at hmem
      obtain ⟨e, he, rfl⟩ := hmem
      rw [List.mem_filter] at he
      have hne : e.itemId ≠ ev.itemId := by
        have := he.2
        simpa using this
      exact ⟨List.mem_map_of_mem _ he.1, hne⟩
    · rintro ⟨hmem, hne⟩
      rw [List.mem_map] at hmem
      obtain ⟨e, he, rfl⟩ := hmem
      rw [List.mem_map]
      refine ⟨e, ?_, rfl⟩
      rw [List.mem_filter]
      exact ⟨he, by simpa using hne⟩

/-- Concrete configuration limiting recent projects to 2, and a registry at
that capacity; used by the C2 witness. -/
def cfgTwo : String → Option Nat :=
  fun s => if s = "maxRecentProjects" then some 2 else none

def projTwo : List (RecentEntry Int Unit) :=
  [⟨"p1", ItemType.project, 0, 1, 5, none⟩,
   ⟨"p2", ItemType.project, 0, 1, 9, none⟩]

/-- Witness for amended C2: adding a third distinct project under a
configured capacity of 2 keeps exactly 2 projects. -/
theorem addItem_capacity_witness :
    ((addItem (fun _ u => (u : Int)) cfgTwo 7 "p3" ItemType.project
        (none : Option Unit) projTwo).filter (byType ItemType.project)).length
      = maxFor cfgTwo ItemType.project := by
  have hnod : keysNodup projTwo := by unfold keysNodup; decide
  have h := (addItem_capacity (fun _ u => (u : Int)) cfgTwo 7 "p3"
    ItemType.project (none : Option Unit) projTwo hnod).2
    (by decide) (by decide)
  exact h.1

/-- A configuration that sets every capacity key to 3, and a registry of four
distinct search keywords; used by the C2 counterexample. -/
def cfgThree : String → Option Nat := fun _ => some 3

def kwFour : List (RecentEntry Int Unit) :=
  [⟨"k1", ItemType.searchKeyword, 0, 1, 0, none⟩,
   ⟨"k2", ItemType.searchKeyword, 0, 1, 0, none⟩,
   ⟨"k3", ItemType.searchKeyword, 0, 1, 0, none⟩,
   ⟨"k4", ItemType.searchKeyword, 0, 1, 0, none⟩]

/-- C2 counterexample: the SearchKeyword capacity is NOT externally
configurable — `limitItems` hardcodes 10 (likewise CodeGroup 10, CodeRepo 20,
CodeBranch 30) and reads the configuration only for Project and WorkItem.
With every capacity configured to 3, adding a fifth distinct search keyword
still leaves 5 keyword entries (5 > 3): the configured value is ignored. -/
theorem capacity_not_configurable_counterexample :
    ((addItem (fun _ _ => (0 : Int)) cfgThree 0 "k5" ItemType.searchKeyword
        (none : Option Unit) kwFour).filter (byType ItemType.searchKeyword)).length
      = 5
    ∧ cfgThree "maxRecentSearchKeywords" = some 3
    ∧ ¬(5 ≤ 3) := by
  refine ⟨?_, rfl, by decide⟩
  have h1 : ((addItem (fun _ _ => (0 : Int)) cfgThree 0 "k5"
      ItemType.searchKeyword (none : Option Unit) kwFour).filter
        (byType ItemType.searchKeyword)).length
      = ((limitItems cfgThree (upsertFirst "k5" ItemType.searchKeyword
          (fun old =>
            { old with
              lastUsedAt := 0,
              useCount := old.useCount + 1,
              data := jsOr none old.data,
              score := (fun (_ : Int) (_ : Nat) => (0 : Int)) 0 (old.useCount + 1) })
          ⟨"k5", ItemType.searchKeyword, 0, 1,
            (fun (_ : Int) (_ : Nat) => (0 : Int)) 0 1, none⟩ kwFour)).filter
        (byType ItemType.searchKeyword)).length :=
    recalc_count (fun _ _ => (0 : Int)) _ ItemType.searchKeyword
  rw [h1]
  decide

end Yunxiao
